import Mathlib

/-!
Verification development for the excalidesk Canvas Server
(`src/main/mcp/canvas-server.ts`).

The TypeScript handlers are embedded shallowly:

* A JSON element object (`ServerElement`) becomes the record `Elem` below.
  Every field is an `Option`: `none` models an absent key, `some v` a present
  key.  Fields of the source that no claim ever reads (`label`, `fontSize`,
  `fontFamily`, `roundness`, `startArrowhead`, `endArrowhead`, `elbowed`,
  `link`, appState, files) are elided from the record.
* A JavaScript `Map` becomes an insertion-ordered association list
  (`AList`): `set` keeps the position of an existing key and appends new
  keys, exactly like `Map.prototype.set`; `delete` removes the key.
* JSON numbers are modelled as `Rat`.  The floating-point functions used by
  the arrow geometry (`Math.sqrt`, `atan2`, `tan`, `cos`, `sin`) are
  abstracted into a `GeomOracle` parameter; every property proved about the
  resolver holds for every oracle, i.e. independently of the numerics.
* Stateful handlers become functions `SrvState → args → SrvState × response
  × emitted messages`.
-/

set_option autoImplicit false

namespace Excalidesk

/-- An arrow/line binding record `{elementId, focus, gap}` as produced by
`resolveArrowBindings`.  `elementId` is `Option String` because the source
copies `startEl.id`, which is itself a possibly-absent JSON field. -/
structure Binding where
  elementId : Option String
  focus : Rat
  gap : Rat
deriving DecidableEq, Repr

/-- Shallow embedding of `ServerElement`: a JSON object; `none` = absent key.
`startRef`/`endRef` model the raw `start`/`end` endpoint references (the
source stores `{id: string}`; we keep just the id).  `boundElements` is
doubly optional: outer `none` = key absent, `some none` = JSON `null`. -/
structure Elem where
  id : Option String := none
  type : Option String := none
  x : Option Rat := none
  y : Option Rat := none
  width : Option Rat := none
  height : Option Rat := none
  angle : Option Rat := none
  strokeColor : Option String := none
  backgroundColor : Option String := none
  fillStyle : Option String := none
  strokeWidth : Option Rat := none
  strokeStyle : Option String := none
  roughness : Option Rat := none
  opacity : Option Rat := none
  text : Option String := none
  groupIds : Option (List String) := none
  locked : Option Bool := none
  isDeleted : Option Bool := none
  boundElements : Option (Option (List String)) := none
  points : Option (List (Rat × Rat)) := none
  startRef : Option String := none
  endRef : Option String := none
  startBinding : Option Binding := none
  endBinding : Option Binding := none
  version : Option Nat := none
  versionNonce : Option Nat := none
  updated : Option Nat := none
  createdAt : Option String := none
  updatedAt : Option String := none
deriving DecidableEq, Repr

/-- JavaScript object-spread on one field: the right operand wins when its
key is present (`some`), otherwise the left value survives. -/
def upd {α : Type} : Option α → Option α → Option α
  | some v, _ => some v
  | none, old => old

@[simp] theorem upd_some {α : Type} (v : α) (o : Option α) : upd (some v) o = some v := rfl

@[simp] theorem upd_none {α : Type} (o : Option α) : upd none o = o := rfl

/-- `{...existing, ...updates}`: field-wise object spread. -/
def mergeElem (e u : Elem) : Elem where
  id := upd u.id e.id
  type := upd u.type e.type
  x := upd u.x e.x
  y := upd u.y e.y
  width := upd u.width e.width
  height := upd u.height e.height
  angle := upd u.angle e.angle
  strokeColor := upd u.strokeColor e.strokeColor
  backgroundColor := upd u.backgroundColor e.backgroundColor
  fillStyle := upd u.fillStyle e.fillStyle
  strokeWidth := upd u.strokeWidth e.strokeWidth
  strokeStyle := upd u.strokeStyle e.strokeStyle
  roughness := upd u.roughness e.roughness
  opacity := upd u.opacity e.opacity
  text := upd u.text e.text
  groupIds := upd u.groupIds e.groupIds
  locked := upd u.locked e.locked
  isDeleted := upd u.isDeleted e.isDeleted
  boundElements := upd u.boundElements e.boundElements
  points := upd u.points e.points
  startRef := upd u.startRef e.startRef
  endRef := upd u.endRef e.endRef
  startBinding := upd u.startBinding e.startBinding
  endBinding := upd u.endBinding e.endBinding
  version := upd u.version e.version
  versionNonce := upd u.versionNonce e.versionNonce
  updated := upd u.updated e.updated
  createdAt := upd u.createdAt e.createdAt
  updatedAt := upd u.updatedAt e.updatedAt

/-! ### Association lists with JavaScript `Map` semantics -/

/-- Insertion-ordered association list standing in for a JS `Map`. -/
abbrev AList (κ ν : Type) := List (κ × ν)

variable {κ ν : Type} [DecidableEq κ]

/-- `Map.prototype.has`. -/
def alHas : AList κ ν → κ → Bool
  | [], _ => false
  | p :: t, k => decide (p.1 = k) || alHas t k

/-- `Map.prototype.get` (keys are unique in every map the server builds, so
first-match lookup is the `Map` lookup). -/
def alGet : AList κ ν → κ → Option ν
  | [], _ => none
  | p :: t, k => if p.1 = k then some p.2 else alGet t k

/-- `Map.prototype.set`: replace the value of an existing key in place
(keeping its insertion position), otherwise append. -/
def alSet : AList κ ν → κ → ν → AList κ ν
  | [], k, v => [(k, v)]
  | p :: t, k, v => if p.1 = k then (k, v) :: t else p :: alSet t k v

/-- `Map.prototype.delete` (keys are unique, so filtering the key out is the
same as removing its single entry). -/
def alDelete (m : AList κ ν) (k : κ) : AList κ ν :=
  m.filter (fun p => decide (p.1 ≠ k))

/-- `Array.from(map.values())`. -/
def alValues (m : AList κ ν) : List ν := m.map Prod.snd

/-- `map.keys()`. -/
def alKeys (m : AList κ ν) : List κ := m.map Prod.fst

/-- The server's `elements` map: keyed by the element's (possibly absent)
`id`, exactly as `this.elements.set(el.id, el)` does. -/
abbrev Store := AList (Option String) Elem

/-- JavaScript string truthiness of an optional string field:
absent and `""` are falsy. -/
def strTruthy : Option String → Bool
  | some s => !(s = "")
  | none => false

/-! ### Zod schemas

`CreateElementSchema` / `UpdateElementSchema` from `setupRoutes`.
`z.object` parses in strip mode: keys outside the schema are dropped.
In particular `angle`, `isDeleted`, `boundElements`, the binding records and
all version/timestamp fields are **not** schema keys and never survive
parsing. -/

/-- Modelled from the spec: the closed element-type tag set
`EXCALIDRAW_ELEMENT_TYPES` lives in `excalidraw-types.ts`, which is not part
of the provided sources; the spec fixes the tags as
{rectangle, ellipse, diamond, text, line, arrow, freedraw, image, frame}. -/
def elementTypeEnum : List String :=
  ["rectangle", "ellipse", "diamond", "text", "line", "arrow", "freedraw", "image", "frame"]

/-- Strip-mode projection shared by both schemas: keep exactly the schema
keys our record carries, drop everything else. -/
def zodStrip (e : Elem) : Elem where
  id := e.id
  type := e.type
  x := e.x
  y := e.y
  width := e.width
  height := e.height
  strokeColor := e.strokeColor
  backgroundColor := e.backgroundColor
  fillStyle := e.fillStyle
  strokeWidth := e.strokeWidth
  strokeStyle := e.strokeStyle
  roughness := e.roughness
  opacity := e.opacity
  text := e.text
  groupIds := e.groupIds
  locked := e.locked
  points := e.points
  startRef := e.startRef
  endRef := e.endRef

/-- `CreateElementSchema.parse`: `type` must be one of the enum tags and
`x`, `y` are required numbers; all other keys are optional.  Returns `none`
on a `ZodError` (the route then answers 400). -/
def zodParseCreate (e : Elem) : Option Elem :=
  if (match e.type with
      | some t => elementTypeEnum.contains t
      | none => false)
     && e.x.isSome && e.y.isSome
  then some (zodStrip e) else none

/-- `UpdateElementSchema.parse` (= `CreateElementSchema.partial().extend {id}`):
`id` required, everything else optional; `type`, when present, must still be
an enum tag. -/
def zodParseUpdate (e : Elem) : Option Elem :=
  if (match e.type with
      | some t => elementTypeEnum.contains t
      | none => true)
     && e.id.isSome
  then some (zodStrip e) else none

/-! ### Arrow binding geometry -/

/-- The floating-point primitives used by `computeEdgePoint` and
`resolveArrowBindings`.  The claims proved below hold for every oracle. -/
structure GeomOracle where
  sqrt : Rat → Rat
  atan2 : Rat → Rat → Rat
  cos : Rat → Rat
  sin : Rat → Rat
  tan : Rat → Rat

/-- A fully trivial oracle, used to instantiate witnesses. -/
def zeroOracle : GeomOracle where
  sqrt := fun _ => 0
  atan2 := fun _ _ => 0
  cos := fun _ => 0
  sin := fun _ => 0
  tan := fun _ => 0

/-- `computeEdgePoint(el, targetX, targetY)`.  The source reads `el.x`,
`el.y` directly (assuming presence) and guards `width`/`height` with
`|| 0`; absent coordinates are read as 0 here. -/
def computeEdgePoint (G : GeomOracle) (el : Elem) (targetX targetY : Rat) : Rat × Rat :=
  let cx := el.x.getD 0 + el.width.getD 0 / 2
  let cy := el.y.getD 0 + el.height.getD 0 / 2
  let dx := targetX - cx
  let dy := targetY - cy
  if el.type = some "diamond" then
    let hw := el.width.getD 0 / 2
    let hh := el.height.getD 0 / 2
    if dx = 0 ∧ dy = 0 then (cx, cy + hh)
    else
      let scale := 1 / (|dx| / hw + |dy| / hh)
      (cx + dx * scale, cy + dy * scale)
  else if el.type = some "ellipse" then
    let a := el.width.getD 0 / 2
    let b := el.height.getD 0 / 2
    if dx = 0 ∧ dy = 0 then (cx, cy + b)
    else
      let angle := G.atan2 dy dx
      (cx + a * G.cos angle, cy + b * G.sin angle)
  else
    let hw := el.width.getD 0 / 2
    let hh := el.height.getD 0 / 2
    if dx = 0 ∧ dy = 0 then (cx, cy + hh)
    else
      let angle := G.atan2 dy dx
      let tanA := G.tan angle
      if |tanA * hw| ≤ hh then
        let signX : Rat := if dx ≥ 0 then 1 else -1
        (cx + signX * hw, cy + signX * hw * tanA)
      else
        let signY : Rat := if dy ≥ 0 then 1 else -1
        (cx + signY * hh / tanA, cy + signY * hh)

/-- The working element map of `resolveArrowBindings`: batch first
(keyed by own id), then every store entry whose key is not already taken. -/
def buildWorkingMap (store : Store) (batch : List Elem) : Store :=
  let m := batch.foldl (fun m el => alSet m el.id el) ([] : Store)
  store.foldl (fun m p => if alHas m p.1 then m else alSet m p.1 p.2) m

/-- The body of the `for (const el of batchElements)` loop of
`resolveArrowBindings`, acting on one element against the working map. -/
def resolveOne (G : GeomOracle) (emap : Store) (el : Elem) : Elem :=
  if !(el.type = some "arrow" || el.type = some "line") then el
  else if el.startRef = none ∧ el.endRef = none then el
  else
    let startEl := el.startRef.bind (fun rid => alGet emap (some rid))
    let endEl := el.endRef.bind (fun rid => alGet emap (some rid))
    let startCenter :=
      match startEl with
      | some se => (se.x.getD 0 + se.width.getD 0 / 2, se.y.getD 0 + se.height.getD 0 / 2)
      | none => (el.x.getD 0, el.y.getD 0)
    let endCenter :=
      match endEl with
      | some ee => (ee.x.getD 0 + ee.width.getD 0 / 2, ee.y.getD 0 + ee.height.getD 0 / 2)
      | none => (el.x.getD 0 + 100, el.y.getD 0)
    let gap : Rat := 8
    let startPt :=
      match startEl with
      | some se => computeEdgePoint G se endCenter.1 endCenter.2
      | none => startCenter
    let endPt :=
      match endEl with
      | some ee => computeEdgePoint G ee startCenter.1 startCenter.2
      | none => endCenter
    let startDx := endPt.1 - startPt.1
    let startDy := endPt.2 - startPt.2
    -- `Math.sqrt(...) || 1`
    let startDist := let d := G.sqrt (startDx * startDx + startDy * startDy); if d = 0 then 1 else d
    let endDx := startPt.1 - endPt.1
    let endDy := startPt.2 - endPt.2
    let endDist := let d := G.sqrt (endDx * endDx + endDy * endDy); if d = 0 then 1 else d
    let finalStart := (startPt.1 + startDx / startDist * gap, startPt.2 + startDy / startDist * gap)
    let finalEnd := (endPt.1 + endDx / endDist * gap, endPt.2 + endDy / endDist * gap)
    { el with
      x := some finalStart.1
      y := some finalStart.2
      points := some [(0, 0), (finalEnd.1 - finalStart.1, finalEnd.2 - finalStart.2)]
      startRef := none
      endRef := none
      startBinding :=
        match startEl with
        | some se => some ⟨se.id, 0, gap⟩
        | none => el.startBinding
      endBinding :=
        match endEl with
        | some ee => some ⟨ee.id, 0, gap⟩
        | none => el.endBinding }

/-- The working-map evolution across one iteration of the
`resolveArrowBindings` loop.  The source never writes `elementMap` inside
the loop; it mutates the current batch element in place, and that mutation
is visible through the map exactly when the map entry for the element's id
*is* that very object — i.e. when no later batch element carries the same
id, because the map-building pass keyed the batch by `Map.set` (last
duplicate wins) before adopting store entries only at unclaimed keys.  So
the threaded map is refreshed precisely at the last batch occurrence of
each id and left untouched otherwise. -/
def resolveStep (G : GeomOracle) (m : Store) (el : Elem) (rest : List Elem) : Store :=
  if rest.all (fun x => !(decide (x.id = el.id))) then
    alSet m (resolveOne G m el).id (resolveOne G m el)
  else m

/-- The `for (const el of batchElements)` loop of `resolveArrowBindings`:
emit each element resolved against the current working map, threading the
map through `resolveStep`. -/
def resolveFold (G : GeomOracle) : List Elem → List Elem × Store → List Elem × Store
  | [], acc => acc
  | el :: rest, acc =>
    resolveFold G rest (acc.1 ++ [resolveOne G acc.2 el], resolveStep G acc.2 el rest)

/-- `resolveArrowBindings(batchElements)`: build the working map (batch
keyed by own id, store entries at unclaimed keys), then run the in-place
resolution loop over the batch. -/
def resolveArrowBindings (G : GeomOracle) (store : Store) (batch : List Elem) : List Elem :=
  (resolveFold G batch ([], buildWorkingMap store batch)).1

/-! ### Server state and wire messages -/

/-- A WebSocket peer handle; identity comparison only. -/
abbrev Peer := Nat

/-- Broadcast payloads, restricted to the constructors and fields the claims
inspect.  `mermaidConvert` deliberately has no request-id field: the source
object `{type: "mermaid_convert", mermaidDiagram, config, timestamp}`
carries none. -/
inductive WireMsg where
  | canvasSync (elements : List Elem)
  | elementCreated (element : Elem)
  | elementUpdated (element : Elem)
  | elementDeleted (elementId : String)
  | elementsBatchCreated (elements : List Elem)
  | elementsSynced (elements : List Elem) (count : Nat) (syncedAt : String)
  | canvasCleared (clearedAt : String)
  | mermaidConvert (mermaidDiagram : String) (timestamp : String)
  | exportImageRequest (requestId : String) (format : String) (background : Bool)
  | setViewport (requestId : String)
deriving DecidableEq, Repr

/-- A named snapshot `{name, elements, createdAt}`. -/
structure Snap where
  name : String
  elements : List Elem
  createdAt : String
deriving DecidableEq, Repr

/-- The mutable fields of `CanvasServer`.  Pending-request maps are the sets
of registered request ids; the armed `setTimeout` handles are tracked
separately so that clearing a timer is observable. -/
structure SrvState where
  clients : List Peer := []
  store : Store := []
  canvasElements : List Elem := []
  snapshots : AList String Snap := []
  pendingExports : List String := []
  exportTimers : List String := []
  pendingViewports : List String := []
  viewportTimers : List String := []

/-- `broadcast(message, exclude?)`: send to every peer that is not the
excluded one and whose transport is open. -/
def broadcast (clients : List Peer) (isOpen : Peer → Bool) (payload : WireMsg)
    (exclude : Option Peer) : List (Peer × WireMsg) :=
  (clients.filter (fun c => decide (some c ≠ exclude) && isOpen c)).map (fun c => (c, payload))

/-- `syncCanvasStateFromMap()`. -/
def syncCanvasStateFromMap (s : SrvState) : SrvState :=
  { s with canvasElements := alValues s.store }

/-- `syncMapFromCanvasState()`: rebuild the map from scratch, keeping only
entries that are truthy and have a truthy `id`. -/
def mapFromCanvas (els : List Elem) : Store :=
  els.foldl (fun m el => if strTruthy el.id then alSet m el.id el else m) []

/-- `broadcastCanvasSync()` as a payload producer: refresh `canvasState`
from the map and emit one `canvas_sync` frame carrying it. -/
def canvasSyncPayload (s : SrvState) : SrvState × WireMsg :=
  let s' := syncCanvasStateFromMap s
  (s', .canvasSync s'.canvasElements)

/-! ### REST handlers (the `/api` surface of `setupRoutes`) -/

/-- A JSON response: HTTP status, `success`, and the payload fields the
claims read. -/
structure CreateResp where
  status : Nat
  success : Bool
  element : Option Elem := none
deriving DecidableEq, Repr

/-- `POST /api/elements`.  `freshId` stands for the `generateId()` draw,
`now` for `new Date().toISOString()`. -/
def postApiElement (G : GeomOracle) (freshId now : String) (s : SrvState) (body : Elem) :
    SrvState × CreateResp × List WireMsg :=
  match zodParseCreate body with
  | none => (s, ⟨400, false, none⟩, [])
  | some params =>
    -- const id = params.id || this.generateId()
    let idVar : String :=
      match params.id with
      | some t => if t = "" then freshId else t
      | none => freshId
    -- { id, ...params, createdAt, updatedAt, version: 1 }: a present
    -- params.id overwrites the freshly chosen id field (not the map key)
    let element : Elem :=
      { params with
        id := some (params.id.getD idVar)
        createdAt := some now, updatedAt := some now, version := some 1 }
    let element :=
      -- ((element as any).start || (element as any).end): the reference
      -- objects are truthy whenever the key is present
      if (element.type = some "arrow" ∨ element.type = some "line")
          ∧ (element.startRef.isSome ∨ element.endRef.isSome) then
        -- this.resolveArrowBindings([element])
        (resolveArrowBindings G s.store [element]).headD element
      else element
    let s₁ := { s with store := alSet s.store (some idVar) element }
    let (s₂, syncMsg) := canvasSyncPayload s₁
    (s₂, ⟨200, true, some element⟩, [.elementCreated element, syncMsg])

/-- `PUT /api/elements/:id`. -/
def putApiElement (now : String) (s : SrvState) (id : String) (body : Elem) :
    SrvState × CreateResp × List WireMsg :=
  -- UpdateElementSchema.parse({ id, ...req.body }): a body id wins over the path id
  match zodParseUpdate { body with id := some (body.id.getD id) } with
  | none => (s, ⟨400, false, none⟩, [])
  | some updates =>
    match alGet s.store (some id) with
    | none => (s, ⟨404, false, none⟩, [])
    | some existing =>
      let updated := { mergeElem existing updates with updatedAt := some now }
      let s₁ := { s with store := alSet s.store (some id) updated }
      let (s₂, syncMsg) := canvasSyncPayload s₁
      (s₂, ⟨200, true, some updated⟩, [.elementUpdated updated, syncMsg])

/-- `DELETE /api/elements/:id`. -/
def deleteApiElement (s : SrvState) (id : String) : SrvState × CreateResp × List WireMsg :=
  if alHas s.store (some id) then
    let s₁ := { s with store := alDelete s.store (some id) }
    let (s₂, syncMsg) := canvasSyncPayload s₁
    (s₂, ⟨200, true, none⟩, [.elementDeleted id, syncMsg])
  else (s, ⟨404, false, none⟩, [])

/-- `DELETE /api/elements/clear`. -/
def clearApiElements (now : String) (s : SrvState) : SrvState × CreateResp × List WireMsg :=
  let s₁ := { s with store := [] }
  let (s₂, syncMsg) := canvasSyncPayload s₁
  (s₂, ⟨200, true, none⟩, [.canvasCleared now, syncMsg])

/-- Response of the batch route. -/
structure BatchResp where
  status : Nat
  success : Bool
  elements : List Elem := []
  count : Nat := 0
deriving DecidableEq, Repr

/-- `POST /api/elements/batch`.  `fresh i` models the `generateId()` draw
for the i-th batch member. -/
def postApiBatch (G : GeomOracle) (fresh : Nat → String) (now : String) (s : SrvState)
    (body : Option (List Elem)) : SrvState × BatchResp × List WireMsg :=
  match body with
  | none => (s, ⟨400, false, [], 0⟩, [])
  | some els =>
    let created := els.enum.map (fun (i, el) =>
      { el with
        id := some (match el.id with
          | some t => if t = "" then fresh i else t
          | none => fresh i)
        createdAt := some now, updatedAt := some now, version := some 1 })
    let resolved := resolveArrowBindings G s.store created
    let s₁ := { s with store := resolved.foldl (fun m el => alSet m el.id el) s.store }
    let (s₂, syncMsg) := canvasSyncPayload s₁
    (s₂, ⟨200, true, resolved, resolved.length⟩, [.elementsBatchCreated resolved, syncMsg])

/-- Response of `POST /api/elements/sync`. -/
structure SyncResp where
  status : Nat
  success : Bool
  count : Nat := 0
  beforeCount : Nat := 0
  afterCount : Nat := 0
deriving DecidableEq, Repr

/-- `POST /api/elements/sync`: clear the map and re-insert every submitted
element under its own (possibly absent) id. -/
def postApiSync (now : String) (s : SrvState) (body : Option (List Elem)) :
    SrvState × SyncResp × List WireMsg :=
  match body with
  | none => (s, ⟨400, false, 0, 0, 0⟩, [])
  | some els =>
    let beforeCount := s.store.length
    let s₁ := { s with store := els.foldl (fun m el => alSet m el.id el) [] }
    let (s₂, syncMsg) := canvasSyncPayload s₁
    (s₂, ⟨200, true, els.length, beforeCount, s₁.store.length⟩,
      [.elementsSynced els els.length now, syncMsg])

/-! ### Search -/

/-- JavaScript `String(n)` for the numeric values the server stores.  The
rendering agrees with JS on integral values, the only kind any claim
exercises; non-integral rationals get a placeholder rendering. -/
def ratToJsString (q : Rat) : String :=
  if q.den = 1 then toString q.num else toString q.num ++ "/" ++ toString q.den

/-- `(el as any)[key]` followed by `String(...)`: read a dynamic key off an
element.  `none` models `undefined`.  Keys outside the modelled record —
including `minWidth`, `maxWidth`, `minHeight`, `maxHeight` and
`textContains`, which no stored element carries — read as absent.
(Non-primitive fields such as `groupIds`/`points` are elided; no claim
queries them.) -/
def getFieldString (el : Elem) (key : String) : Option String :=
  match key with
  | "id" => el.id
  | "type" => el.type
  | "x" => el.x.map ratToJsString
  | "y" => el.y.map ratToJsString
  | "width" => el.width.map ratToJsString
  | "height" => el.height.map ratToJsString
  | "angle" => el.angle.map ratToJsString
  | "strokeColor" => el.strokeColor
  | "backgroundColor" => el.backgroundColor
  | "fillStyle" => el.fillStyle
  | "strokeWidth" => el.strokeWidth.map ratToJsString
  | "strokeStyle" => el.strokeStyle
  | "roughness" => el.roughness.map ratToJsString
  | "opacity" => el.opacity.map ratToJsString
  | "text" => el.text
  | "locked" => el.locked.map (fun b => if b then "true" else "false")
  | "version" => el.version.map toString
  | "versionNonce" => el.versionNonce.map toString
  | "updated" => el.updated.map toString
  | "createdAt" => el.createdAt
  | "updatedAt" => el.updatedAt
  | _ => none

/-- Response of the search route. -/
structure SearchResp where
  status : Nat
  success : Bool
  elements : List Elem := []
  count : Nat := 0
deriving DecidableEq, Repr

/-- `GET /api/elements/search`: a truthy `type` parameter filters by tag
equality; **every** other query key — whatever its name — demands
`String(el[key]) === String(value)` with `undefined` failing outright.
There is no range or substring handling of any kind. -/
def searchApiElements (s : SrvState) (query : List (String × String)) : SearchResp :=
  let type? := (query.find? (fun p => decide (p.1 = "type"))).map Prod.snd
  let results := (alValues s.store).filter (fun el =>
    (match type? with
     | some t => if t = "" then true else decide (el.type = some t)
     | none => true)
    && query.all (fun kv =>
      if kv.1 = "type" then true
      else match getFieldString el kv.1 with
        | none => false
        | some sv => decide (sv = kv.2)))
  ⟨200, true, results, results.length⟩

/-! ### Correlated endpoints and their result endpoints -/

/-- Response of `POST /api/elements/from-mermaid`. -/
structure MermaidResp where
  status : Nat
  success : Bool
  error : Option String := none
  message : Option String := none
deriving DecidableEq, Repr

/-- `POST /api/elements/from-mermaid`: validate that `mermaidDiagram` is a
truthy string, broadcast a `mermaid_convert` frame and answer 200
immediately.  The handler never reads `this.clients`, allocates no request
id and registers nothing pending. -/
def postFromMermaid (now : String) (s : SrvState) (mermaidDiagram : Option String) :
    SrvState × MermaidResp × List WireMsg :=
  if !strTruthy mermaidDiagram then
    (s, ⟨400, false, some "Mermaid diagram definition is required", none⟩, [])
  else
    (s, ⟨200, true, none, some "Mermaid diagram sent to frontend for conversion."⟩,
      [.mermaidConvert (mermaidDiagram.getD "") now])

/-- Response of the export/viewport initiation routes.  `status = 0` marks
the parked branch: the HTTP answer is deferred until the waiter resolves. -/
structure InitResp where
  status : Nat
  success : Bool
  error : Option String := none
  pendingRequest : Option String := none
deriving DecidableEq, Repr

/-- `POST /api/export/image`.  `rid` models the `generateId()` draw. -/
def postExportImage (rid : String) (s : SrvState) (format : Option String)
    (background : Option Bool) : SrvState × InitResp × List WireMsg :=
  if !(match format with
       | some f => ["png", "svg"].contains f
       | none => false) then
    (s, ⟨400, false, some "format must be \x22png\x22 or \x22svg\x22", none⟩, [])
  else if s.clients.length = 0 then
    (s, ⟨503, false, some "No frontend client connected. Open the canvas first.", none⟩, [])
  else
    ({ s with pendingExports := rid :: s.pendingExports, exportTimers := rid :: s.exportTimers },
      ⟨0, true, none, some rid⟩,
      [.exportImageRequest rid (format.getD "") (background.getD true)])

/-- `POST /api/viewport`. -/
def postViewport (rid : String) (s : SrvState) : SrvState × InitResp × List WireMsg :=
  if s.clients.length = 0 then
    (s, ⟨503, false, some "No frontend client connected. Open the canvas first.", none⟩, [])
  else
    ({ s with pendingViewports := rid :: s.pendingViewports,
              viewportTimers := rid :: s.viewportTimers },
      ⟨0, true, none, some rid⟩, [.setViewport rid])

/-- Response of the result endpoints. -/
structure ResultResp where
  status : Nat
  success : Bool
deriving DecidableEq, Repr

/-- `POST /api/export/image/result`.  The third component is the payload
handed to the parked waiter's `resolve` — `none` when no waiter was
resolved. -/
def postExportImageResult (s : SrvState) (requestId format data error : Option String) :
    SrvState × ResultResp × Option (Option String × Option String) :=
  if !strTruthy requestId then (s, ⟨400, false⟩, none)
  else
    let rid := requestId.getD ""
    if !s.pendingExports.contains rid then (s, ⟨200, true⟩, none)
    else if strTruthy error then (s, ⟨200, true⟩, none)
    else
      ({ s with pendingExports := s.pendingExports.filter (fun r => decide (r ≠ rid))
                exportTimers := s.exportTimers.filter (fun r => decide (r ≠ rid)) },
        ⟨200, true⟩, some (format, data))

/-- `POST /api/viewport/result`.  The third component is the
`{success ?? true, message ?? "Viewport updated"}` record handed to the
waiter. -/
def postViewportResult (s : SrvState) (requestId : Option String) (success : Option Bool)
    (message error : Option String) :
    SrvState × ResultResp × Option (Bool × String) :=
  if !strTruthy requestId then (s, ⟨400, false⟩, none)
  else
    let rid := requestId.getD ""
    if !s.pendingViewports.contains rid then (s, ⟨200, true⟩, none)
    else if strTruthy error then (s, ⟨200, true⟩, none)
    else
      ({ s with pendingViewports := s.pendingViewports.filter (fun r => decide (r ≠ rid))
                viewportTimers := s.viewportTimers.filter (fun r => decide (r ≠ rid)) },
        ⟨200, true⟩, some (success.getD true, message.getD "Viewport updated"))

/-! ### Snapshots -/

/-- `String.prototype.trim()`: strip leading and trailing whitespace
(structurally recursive model of the JS built-in). -/
def jsTrim (s : String) : String :=
  ⟨((s.data.dropWhile Char.isWhitespace).reverse.dropWhile Char.isWhitespace).reverse⟩

/-- Response of `POST /api/snapshots`. -/
structure SnapResp where
  status : Nat
  success : Bool
  name : Option String := none
  elementCount : Nat := 0
deriving DecidableEq, Repr

/-- `POST /api/snapshots`: `String((body?.name ?? "").trim())`; empty after
trimming is a 400, otherwise the snapshot records the current map values
and overwrites any snapshot of the same name. -/
def postSnapshot (now : String) (s : SrvState) (name : Option String) : SrvState × SnapResp :=
  let n := jsTrim (name.getD "")
  if n = "" then (s, ⟨400, false, none, 0⟩)
  else
    let snap : Snap := ⟨n, alValues s.store, now⟩
    ({ s with snapshots := alSet s.snapshots n snap }, ⟨200, true, some n, snap.elements.length⟩)

/-! ### Legacy surface (the store-mutating part) -/

/-- `POST /elements`: assign an id when the field is falsy, then insert the
raw body. -/
def legacyPostElement (freshId : String) (s : SrvState) (body : Elem) :
    SrvState × CreateResp × List WireMsg :=
  let el := if strTruthy body.id then body else { body with id := some freshId }
  let s₁ := { s with store := alSet s.store el.id el }
  let (s₂, syncMsg) := canvasSyncPayload s₁
  (s₂, ⟨200, true, some el⟩, [syncMsg])

/-- `PUT /elements/:id`: raw `{...existing, ...updates}` merge; no schema,
no timestamp refresh. -/
def legacyPutElement (s : SrvState) (id : String) (body : Elem) :
    SrvState × CreateResp × List WireMsg :=
  match alGet s.store (some id) with
  | none => (s, ⟨404, false, none⟩, [])
  | some existing =>
    let s₁ := { s with store := alSet s.store (some id) (mergeElem existing body) }
    let (s₂, syncMsg) := canvasSyncPayload s₁
    (s₂, ⟨200, true, alGet s₁.store (some id)⟩, [syncMsg])

/-- `DELETE /elements/:id`. -/
def legacyDeleteElement (s : SrvState) (id : String) : SrvState × CreateResp × List WireMsg :=
  if alHas s.store (some id) then
    let s₁ := { s with store := alDelete s.store (some id) }
    let (s₂, syncMsg) := canvasSyncPayload s₁
    (s₂, ⟨200, true, none⟩, [syncMsg])
  else (s, ⟨404, false, none⟩, [])

/-- `POST /clear`. -/
def legacyClear (s : SrvState) : SrvState × CreateResp × List WireMsg :=
  let s₁ := { s with store := [] }
  let (s₂, syncMsg) := canvasSyncPayload s₁
  (s₂, ⟨200, true, none⟩, [syncMsg])

/-- `POST /canvas` (element part; `appState`/`files` elided): replace
`canvasState.elements` when supplied, rebuild the map, broadcast. -/
def legacyPostCanvas (s : SrvState) (els : Option (List Elem)) :
    SrvState × CreateResp × List WireMsg :=
  let ce := els.getD s.canvasElements
  let s₁ := { s with canvasElements := ce, store := mapFromCanvas ce }
  let (s₂, syncMsg) := canvasSyncPayload s₁
  (s₂, ⟨200, true, none⟩, [syncMsg])

/-! ### WebSocket inbound handling -/

/-- Inbound frames of `handleWebSocketMessage`.  The `Option` layers mirror
the `if (message.data)` guards; `canvasSync`'s inner option mirrors
`elements !== undefined` inside the data object. -/
inductive WSMsg where
  | canvasSync (data : Option (Option (List Elem)))
  | elementCreated (data : Option Elem)
  | elementUpdated (data : Option (String × Elem))
  | elementDeleted (data : Option String)
  | unknown
deriving Repr

/-- One observable action of the handler, in program order: the store
mutation, then each `send`. -/
inductive Event where
  | applied
  | sent (peer : Peer) (msg : WireMsg)
deriving DecidableEq, Repr

/-- Lift a broadcast into trace events. -/
def sendEvents (l : List (Peer × WireMsg)) : List Event :=
  l.map (fun pm => .sent pm.1 pm.2)

/-- `broadcastCanvasSync(ws)` inside the WS handler: refresh, then
broadcast excluding the sender. -/
def wsBroadcastCanvasSync (s : SrvState) (isOpen : Peer → Bool) (sender : Peer) :
    SrvState × List Event :=
  let s' := syncCanvasStateFromMap s
  (s', sendEvents (broadcast s'.clients isOpen (.canvasSync s'.canvasElements) (some sender)))

/-- A store mutation followed by `broadcastCanvasSync(ws)`: the `applied`
event records that the mutation precedes every send in program order. -/
def wsApplyThenSync (s : SrvState) (isOpen : Peer → Bool) (sender : Peer) :
    SrvState × List Event :=
  let (s', evs) := wsBroadcastCanvasSync s isOpen sender
  (s', .applied :: evs)

/-- `handleWebSocketMessage(ws, message)`. -/
def handleWSMessage (s : SrvState) (isOpen : Peer → Bool) (sender : Peer) (msg : WSMsg) :
    SrvState × List Event :=
  match msg with
  | .canvasSync none => (s, [])
  | .canvasSync (some els?) =>
    let s₁ :=
      match els? with
      | some els => { s with canvasElements := els, store := mapFromCanvas els }
      | none => s
    let evs :=
      match els? with
      | some _ => [Event.applied]
      | none => []
    (s₁, evs ++ sendEvents (broadcast s₁.clients isOpen (.canvasSync s₁.canvasElements) (some sender)))
  | .elementCreated none => (s, [])
  | .elementCreated (some el) =>
    wsApplyThenSync { s with store := alSet s.store el.id el } isOpen sender
  | .elementUpdated none => (s, [])
  | .elementUpdated (some (id, updates)) =>
    match alGet s.store (some id) with
    | none => (s, [])
    | some existing =>
      wsApplyThenSync
        { s with store := alSet s.store (some id) (mergeElem existing updates) } isOpen sender
  | .elementDeleted none => (s, [])
  | .elementDeleted (some id) =>
    if alHas s.store (some id) then
      wsApplyThenSync { s with store := alDelete s.store (some id) } isOpen sender
    else (s, [])
  | .unknown => (s, [])

/-! ### Element-mutating operations, for state-reachability claims -/

/-- One element-mutating request, with all its nondeterministic inputs
(fresh ids, clock readings, geometry, sender identity) packed into the
constructor. -/
inductive Op where
  | apiCreate (G : GeomOracle) (freshId now : String) (body : Elem)
  | apiPut (now id : String) (body : Elem)
  | apiDelete (id : String)
  | apiClear (now : String)
  | apiBatch (G : GeomOracle) (fresh : Nat → String) (now : String) (body : Option (List Elem))
  | apiSync (now : String) (body : Option (List Elem))
  | legacyCreate (freshId : String) (body : Elem)
  | legacyPut (id : String) (body : Elem)
  | legacyDelete (id : String)
  | legacyClearOp
  | canvasReplace (els : Option (List Elem))
  | wsInbound (sender : Peer) (isOpen : Peer → Bool) (msg : WSMsg)

/-- Apply one operation to the server state. -/
def stepOp (s : SrvState) : Op → SrvState
  | .apiCreate G f n b => (postApiElement G f n s b).1
  | .apiPut n i b => (putApiElement n s i b).1
  | .apiDelete i => (deleteApiElement s i).1
  | .apiClear n => (clearApiElements n s).1
  | .apiBatch G f n b => (postApiBatch G f n s b).1
  | .apiSync n b => (postApiSync n s b).1
  | .legacyCreate f b => (legacyPostElement f s b).1
  | .legacyPut i b => (legacyPutElement s i b).1
  | .legacyDelete i => (legacyDeleteElement s i).1
  | .legacyClearOp => (legacyClear s).1
  | .canvasReplace e => (legacyPostCanvas s e).1
  | .wsInbound sender isOpen msg => (handleWSMessage s isOpen sender msg).1

/-! ## Lemmas about the map operations -/

section AListLemmas

variable {κ ν : Type} [DecidableEq κ]

@[simp] theorem alHas_nil (k : κ) : alHas ([] : AList κ ν) k = false := rfl

@[simp] theorem alHas_cons (p : κ × ν) (t : AList κ ν) (k : κ) :
    alHas (p :: t) k = (decide (p.1 = k) || alHas t k) := rfl

@[simp] theorem alGet_nil (k : κ) : alGet ([] : AList κ ν) k = none := rfl

theorem alGet_cons (p : κ × ν) (t : AList κ ν) (k : κ) :
    alGet (p :: t) k = if p.1 = k then some p.2 else alGet t k := rfl

@[simp] theorem alSet_nil (k : κ) (v : ν) : alSet ([] : AList κ ν) k v = [(k, v)] := rfl

theorem alSet_cons (p : κ × ν) (t : AList κ ν) (k : κ) (v : ν) :
    alSet (p :: t) k v = if p.1 = k then (k, v) :: t else p :: alSet t k v := rfl

@[simp] theorem alGet_set_self (m : AList κ ν) (k : κ) (v : ν) :
    alGet (alSet m k v) k = some v := by
  induction m with
  | nil => simp [alGet]
  | cons p t ih =>
    by_cases h : p.1 = k <;> simp [alSet_cons, alGet_cons, h, ih]

theorem alGet_set_ne (m : AList κ ν) {k k' : κ} (v : ν) (h : k' ≠ k) :
    alGet (alSet m k v) k' = alGet m k' := by
  have hk : ¬ k = k' := fun hk => h hk.symm
  induction m with
  | nil => simp [alGet, hk]
  | cons p t ih =>
    by_cases hp : p.1 = k
    · rw [alSet_cons, if_pos hp, alGet_cons, alGet_cons, if_neg hk, if_neg (hp ▸ hk)]
    · rw [alSet_cons, if_neg hp, alGet_cons, alGet_cons, ih]

@[simp] theorem alHas_set (m : AList κ ν) (k k' : κ) (v : ν) :
    alHas (alSet m k v) k' = (alHas m k' || decide (k = k')) := by
  induction m with
  | nil => simp
  | cons p t ih =>
    rw [alSet_cons]
    by_cases hp : p.1 = k
    · rw [if_pos hp, alHas_cons, alHas_cons]
      by_cases hk : k = k'
      · simp [hk]
      · simp [hk, hp]
    · rw [if_neg hp, alHas_cons, alHas_cons, ih, Bool.or_assoc]

theorem alHas_iff_alGet_isSome (m : AList κ ν) (k : κ) :
    alHas m k = true ↔ (alGet m k).isSome := by
  induction m with
  | nil => simp
  | cons p t ih =>
    by_cases hp : p.1 = k <;> simp [alGet_cons, hp, ih]

theorem alGet_mem {m : AList κ ν} {k : κ} {v : ν} (h : alGet m k = some v) : (k, v) ∈ m := by
  induction m with
  | nil => simp [alGet] at h
  | cons p t ih =>
    rw [alGet_cons] at h
    by_cases hp : p.1 = k
    · rw [if_pos hp] at h
      obtain ⟨p1, p2⟩ := p
      obtain rfl : p1 = k := hp
      obtain rfl : p2 = v := by simpa using h
      exact .head _
    · rw [if_neg hp] at h
      exact .tail _ (ih h)

theorem alKeys_set (m : AList κ ν) (k : κ) (v : ν) :
    alKeys (alSet m k v) = if alHas m k then alKeys m else alKeys m ++ [k] := by
  induction m with
  | nil => simp [alKeys]
  | cons p t ih =>
    rw [alSet_cons]
    by_cases hp : p.1 = k
    · have hh : alHas (p :: t) k = true := by simp [hp]
      rw [if_pos hp, hh, if_pos rfl]
      simp [alKeys, hp]
    · have hKeysCons : alKeys (p :: alSet t k v) = p.1 :: alKeys (alSet t k v) := rfl
      rw [if_neg hp, hKeysCons, ih]
      by_cases ht : alHas t k = true
      · have hh : alHas (p :: t) k = true := by simp [ht]
        rw [if_pos ht, hh, if_pos rfl]
        rfl
      · have hh : alHas (p :: t) k = false := by simp [hp, ht]
        rw [if_neg ht, hh]
        simp [alKeys]

theorem mem_alKeys_iff_alHas (m : AList κ ν) (k : κ) :
    k ∈ alKeys m ↔ alHas m k = true := by
  induction m with
  | nil => simp [alKeys]
  | cons p t ih =>
    show k ∈ p.1 :: alKeys t ↔ _
    rw [alHas_cons]
    simp only [List.mem_cons, Bool.or_eq_true, decide_eq_true_eq, ih]
    exact or_congr eq_comm Iff.rfl

end AListLemmas

/-! ## Claim C1 — `POST /api/elements/from-mermaid` -/

/-- The no-peer server state: no WebSocket client is connected. -/
def noPeerState : SrvState := {}

/-- C1: the spec claims that with 0 peers the request fails with 503 and
that otherwise a `requestId` is allocated, broadcast and awaited.  The
handler does none of this: for every server state (in particular with zero
connected peers) a valid diagram yields an immediate HTTP 200 with a
courtesy message, the broadcast frame carries no request id (the
`mermaidConvert` constructor has none), and the state — including both
pending-request maps — is returned unchanged, so nothing is ever parked. -/
theorem c1_from_mermaid_fire_and_forget :
    (postFromMermaid "2024-01-01T00:00:00.000Z" noPeerState (some "graph TD; A-->B;") =
      (noPeerState,
        ⟨200, true, none, some "Mermaid diagram sent to frontend for conversion."⟩,
        [.mermaidConvert "graph TD; A-->B;" "2024-01-01T00:00:00.000Z"]))
    ∧ (∀ (s : SrvState) (now : String) (d : Option String),
        (postFromMermaid now s d).2.1.status ≠ 503
        ∧ (postFromMermaid now s d).1 = s) := by
  refine ⟨rfl, fun s now d => ?_⟩
  unfold postFromMermaid
  by_cases h : strTruthy d = true
  · simp [h]
  · simp [Bool.not_eq_true] at h
    simp [h]

/-! ## Claim C5 — Normalizer defaults on `POST /api/elements` -/

/-- The request body of the angle-preservation scenario:
`{type:"rectangle", x:0, y:0, width:100, height:50}`. -/
def rectBody : Elem :=
  { type := some "rectangle", x := some 0, y := some 0, width := some 100, height := some 50 }

/-- C5: the spec claims the create route materializes the Normalizer
defaults (`angle=0`, `groupIds=[]`, `isDeleted=false`, `boundElements=null`,
stroke/fill defaults, …).  The route only spreads the parsed body and adds
`createdAt`/`updatedAt`/`version`; none of the defaults appear.  Posting the
scenario rectangle yields an element with `angle`, `groupIds`, `isDeleted`,
`boundElements`, `strokeColor`, `backgroundColor`, `fillStyle`,
`strokeWidth`, `strokeStyle`, `roughness` and `opacity` all **absent**, and
after `PUT {x:200}` the element still has no `angle` key at all (the spec
demands `angle == 0`). -/
theorem c5_no_normalizer_defaults :
    (let r := postApiElement zeroOracle "f1" "2024-01-01T00:00:00.000Z" noPeerState rectBody
     r.2.1.status = 200
     ∧ r.2.1.element.map (·.angle) = some none
     ∧ r.2.1.element.map (·.groupIds) = some none
     ∧ r.2.1.element.map (·.isDeleted) = some none
     ∧ r.2.1.element.map (·.boundElements) = some none
     ∧ r.2.1.element.map (·.strokeColor) = some none
     ∧ r.2.1.element.map (·.backgroundColor) = some none
     ∧ r.2.1.element.map (·.fillStyle) = some none
     ∧ r.2.1.element.map (·.strokeWidth) = some none
     ∧ r.2.1.element.map (·.strokeStyle) = some none
     ∧ r.2.1.element.map (·.roughness) = some none
     ∧ r.2.1.element.map (·.opacity) = some none)
    ∧ (let r := postApiElement zeroOracle "f1" "2024-01-01T00:00:00.000Z" noPeerState rectBody
       let r2 := putApiElement "2024-01-01T00:00:01.000Z" r.1 "f1" { x := some 200 }
       r2.2.1.status = 200
       ∧ r2.2.1.element.map (·.x) = some (some 200)
       ∧ r2.2.1.element.map (·.angle) = some none
       ∧ r2.2.1.element.map (·.angle) ≠ some (some 0)) := by
  refine ⟨⟨rfl, rfl, rfl, rfl, rfl, rfl, rfl, rfl, rfl, rfl, rfl, rfl⟩,
    rfl, rfl, rfl, ?_⟩
  decide

/-! ## Claim C7 — no-peer behaviour of the correlated endpoints -/

/-- C7: with zero connected peers, `POST /api/export/image` (for both valid
formats) and `POST /api/viewport` answer 503 with `success:false` and the
"No frontend client connected" message — but `POST /api/elements/from-mermaid`,
the third correlated call of the claim, performs no peer check at all and
answers 200. -/
theorem c7_no_peer_503 :
    (∀ (s : SrvState) (rid : String) (bg : Option Bool),
      (postExportImage rid { s with clients := [] } (some "png") bg).2.1 =
        ⟨503, false, some "No frontend client connected. Open the canvas first.", none⟩)
    ∧ (∀ (s : SrvState) (rid : String) (bg : Option Bool),
      (postExportImage rid { s with clients := [] } (some "svg") bg).2.1 =
        ⟨503, false, some "No frontend client connected. Open the canvas first.", none⟩)
    ∧ (∀ (s : SrvState) (rid : String),
      (postViewport rid { s with clients := [] }).2.1 =
        ⟨503, false, some "No frontend client connected. Open the canvas first.", none⟩)
    ∧ (∀ (s : SrvState) (now : String),
      (postFromMermaid now { s with clients := [] } (some "graph TD; A-->B;")).2.1.status = 200)
    ∧ (200 : Nat) ≠ 503 := by
  refine ⟨fun s rid bg => ?_, fun s rid bg => ?_, fun s rid => ?_, fun s now => ?_, by decide⟩
  · simp [postExportImage]
  · simp [postExportImage]
  · simp [postViewport]
  · simp [postFromMermaid, strTruthy]

/-! ## Claim C6 — `GET /api/elements/search` -/

/-- The five-element seed of the search scenario (the repository's own
composite-filter fixture). -/
def searchSeed : List Elem :=
  [ { type := some "rectangle", x := some 0, y := some 0, width := some 200,
      height := some 100, strokeColor := some "#ff0000", backgroundColor := some "#ffc9c9" },
    { type := some "ellipse", x := some 300, y := some 0, width := some 80,
      height := some 80, strokeColor := some "#1971c2", backgroundColor := some "#a5d8ff" },
    { type := some "diamond", x := some 0, y := some 200, width := some 60,
      height := some 60, strokeColor := some "#ff0000" },
    { type := some "text", x := some 200, y := some 200, text := some "Hello World" },
    { type := some "rectangle", x := some 400, y := some 400, width := some 500,
      height := some 300 } ]

/-- The server state after batch-creating the seed. -/
def searchSeedState : SrvState :=
  (postApiBatch zeroOracle (fun i => "seed" ++ toString i) "2024-01-01T00:00:00.000Z"
    noPeerState (some searchSeed)).1

/-- C6: the spec claims `minWidth`/`maxWidth`/`minHeight`/`maxHeight` are
inclusive range bounds and `textContains` a case-insensitive substring
filter.  The handler instead applies string equality on the identically
named element field to **every** non-`type` key, so these parameters match
nothing (no stored element carries a `minWidth` or `textContains` key):
`type=rectangle&strokeColor=#ff0000&minWidth=100` returns 0 elements
(the red 200-wide rectangle is dropped although it satisfies the claimed
range semantics), `textContains=hello` and even the exact-case
`textContains=Hello World` return 0, while an exact string equality on a
real field (`width=200`) does match.  -/
theorem c6_search_is_string_equality :
    (searchApiElements searchSeedState
        [("type", "rectangle"), ("strokeColor", "#ff0000"), ("minWidth", "100")]).count = 0
    ∧ (searchApiElements searchSeedState [("minWidth", "100"), ("maxWidth", "300")]).elements = []
    ∧ (searchApiElements searchSeedState [("textContains", "hello")]).count = 0
    ∧ (searchApiElements searchSeedState [("textContains", "Hello World")]).count = 0
    ∧ (searchApiElements searchSeedState [("width", "200")]).count = 1
    ∧ ((searchApiElements searchSeedState [("type", "rectangle"), ("strokeColor", "#ff0000")]).count = 1)
    ∧ ((alValues searchSeedState.store).filter
        (fun el => decide (el.type = some "rectangle") && decide (el.strokeColor = some "#ff0000")
          && decide ((100 : Rat) ≤ el.width.getD 0))).length = 1 := by
  exact ⟨rfl, rfl, rfl, rfl, rfl, rfl, by decide⟩

/-! ## Claim C10 — `POST /api/elements/sync` -/

/-- The last element of `els` whose `id` field equals `k` (the value that
survives re-keyed insertion). -/
def lastById (els : List Elem) (k : Option String) : Option Elem :=
  els.reverse.find? (fun el => decide (el.id = k))

/-- Re-keyed insertion of a list into a map, as the sync route performs. -/
def insertAllById (m : Store) (els : List Elem) : Store :=
  els.foldl (fun m el => alSet m el.id el) m

theorem lastById_cons (e : Elem) (rest : List Elem) (k : Option String) :
    lastById (e :: rest) k =
      match lastById rest k with
      | some v => some v
      | none => if e.id = k then some e else none := by
  unfold lastById
  rw [List.reverse_cons, List.find?_append]
  cases hfind : rest.reverse.find? (fun el => decide (el.id = k)) with
  | none =>
    by_cases hek : e.id = k <;> simp [hek]
  | some v => simp

theorem insertAllById_get (els : List Elem) (m0 : Store) (k : Option String) :
    alGet (insertAllById m0 els) k =
      match lastById els k with
      | some el => some el
      | none => alGet m0 k := by
  induction els generalizing m0 with
  | nil => simp [insertAllById, lastById]
  | cons e rest ih =>
    show alGet (insertAllById (alSet m0 e.id e) rest) k = _
    rw [ih, lastById_cons]
    cases hlast : lastById rest k with
    | some v => simp
    | none =>
      simp only []
      by_cases hek : e.id = k
      · rw [if_pos hek, ← hek, alGet_set_self]
      · rw [if_neg hek, alGet_set_ne m0 e (fun h => hek h.symm)]

theorem alHas_insertAllById (els : List Elem) (m0 : Store) (k : Option String) :
    alHas (insertAllById m0 els) k = (alHas m0 k || els.any (fun el => decide (el.id = k))) := by
  induction els generalizing m0 with
  | nil => simp [insertAllById]
  | cons e rest ih =>
    show alHas (insertAllById (alSet m0 e.id e) rest) k = _
    rw [ih, alHas_set, List.any_cons, Bool.or_assoc]

theorem alKeys_insertAllById_nodup (els : List Elem) (m0 : Store)
    (h : (alKeys m0).Nodup) : (alKeys (insertAllById m0 els)).Nodup := by
  induction els generalizing m0 with
  | nil => exact h
  | cons e rest ih =>
    refine ih _ ?_
    rw [alKeys_set]
    by_cases hh : alHas m0 e.id = true
    · simpa [hh] using h
    · have : e.id ∉ alKeys m0 := fun hm => hh ((mem_alKeys_iff_alHas _ _).mp hm)
      simp [hh, List.nodup_append, h, this]

theorem insertAllById_length (els : List Elem) :
    (insertAllById [] els).length = ((els.map (·.id)).dedup).length := by
  have hkeys : ∀ k, k ∈ alKeys (insertAllById [] els) ↔ k ∈ els.map (·.id) := by
    intro k
    rw [mem_alKeys_iff_alHas, alHas_insertAllById]
    simp [List.any_eq_true, List.mem_map]
  have hnodup : (alKeys (insertAllById [] els)).Nodup :=
    alKeys_insertAllById_nodup els [] (by simp [alKeys])
  have hlen : (insertAllById [] els).length = (alKeys (insertAllById [] els)).length := by
    simp [alKeys]
  rw [hlen]
  have h1 : (alKeys (insertAllById [] els)).toFinset = (els.map (·.id)).toFinset := by
    ext k
    simp only [List.mem_toFinset]
    exact hkeys k
  calc (alKeys (insertAllById [] els)).length
      = (alKeys (insertAllById [] els)).toFinset.card := (List.toFinset_card_of_nodup hnodup).symm
    _ = (els.map (·.id)).toFinset.card := by rw [h1]
    _ = ((els.map (·.id)).dedup).length := List.card_toFinset _

/-- A sync payload with two elements sharing id `"a"` and two elements with
no id at all. -/
def dupSyncPayload : List Elem :=
  [ { id := some "a", type := some "rectangle", x := some 1, y := some 0 },
    { id := some "a", type := some "rectangle", x := some 2, y := some 0 },
    { type := some "ellipse", x := some 3, y := some 0 },
    { type := some "ellipse", x := some 4, y := some 0 } ]

/-- C10: `POST /api/elements/sync` clears the map and re-inserts each
submitted element under its own id, so for duplicated ids only the last
occurrence survives, elements without an id all share the single
`undefined` key, and the reported `afterCount` is exactly the number of
distinct ids — which can be strictly below the submitted length even though
the response succeeds with `count` = submitted length. -/
theorem c10_sync_dedupes_by_id :
    (∀ (now : String) (s : SrvState) (els : List Elem),
      (postApiSync now s (some els)).2.1 =
        ⟨200, true, els.length, s.store.length, ((els.map (·.id)).dedup).length⟩
      ∧ ∀ k, alGet (postApiSync now s (some els)).1.store k = lastById els k)
    ∧ ((postApiSync "2024-01-01T00:00:00.000Z" noPeerState (some dupSyncPayload)).2.1.success = true
       ∧ (postApiSync "2024-01-01T00:00:00.000Z" noPeerState (some dupSyncPayload)).2.1.count = 4
       ∧ (postApiSync "2024-01-01T00:00:00.000Z" noPeerState (some dupSyncPayload)).2.1.afterCount = 2
       ∧ (postApiSync "2024-01-01T00:00:00.000Z" noPeerState
            (some dupSyncPayload)).2.1.afterCount <
          (postApiSync "2024-01-01T00:00:00.000Z" noPeerState (some dupSyncPayload)).2.1.count
       ∧ (alGet (postApiSync "2024-01-01T00:00:00.000Z" noPeerState
            (some dupSyncPayload)).1.store (some "a")).map (·.x) = some (some 2)
       ∧ (alGet (postApiSync "2024-01-01T00:00:00.000Z" noPeerState
            (some dupSyncPayload)).1.store none).map (·.x) = some (some 4)) := by
  constructor
  · intro now s els
    constructor
    · show (⟨200, true, els.length, s.store.length, (insertAllById [] els).length⟩ : SyncResp) = _
      rw [insertAllById_length]
    · intro k
      show alGet (insertAllById [] els) k = _
      rw [insertAllById_get]
      cases lastById els k <;> simp
  · exact ⟨rfl, rfl, rfl, by decide, rfl, rfl⟩

/-! ## Claim C2 — version fields on mutation -/

theorem zodParseCreate_some {e u : Elem} (h : zodParseCreate e = some u) : u = zodStrip e := by
  unfold zodParseCreate at h
  split at h
  · exact (Option.some.inj h).symm
  · exact absurd h (by simp)

theorem zodParseUpdate_some {e u : Elem} (h : zodParseUpdate e = some u) : u = zodStrip e := by
  unfold zodParseUpdate at h
  split at h
  · exact (Option.some.inj h).symm
  · exact absurd h (by simp)

/-- `resolveArrowBindings` never touches identity, version or timestamp
fields of an element. -/
theorem resolveOne_preserves (G : GeomOracle) (emap : Store) (el : Elem) :
    (resolveOne G emap el).id = el.id
    ∧ (resolveOne G emap el).version = el.version
    ∧ (resolveOne G emap el).versionNonce = el.versionNonce
    ∧ (resolveOne G emap el).updated = el.updated
    ∧ (resolveOne G emap el).updatedAt = el.updatedAt
    ∧ (resolveOne G emap el).type = el.type
    ∧ (resolveOne G emap el).createdAt = el.createdAt := by
  unfold resolveOne
  split
  · exact ⟨rfl, rfl, rfl, rfl, rfl, rfl, rfl⟩
  · split
    · exact ⟨rfl, rfl, rfl, rfl, rfl, rfl, rfl⟩
    · exact ⟨rfl, rfl, rfl, rfl, rfl, rfl, rfl⟩

theorem resolveArrowBindings_singleton (G : GeomOracle) (store : Store) (e : Elem) :
    resolveArrowBindings G store [e] = [resolveOne G (buildWorkingMap store [e]) e] := rfl

/-- The stored element before the C2 counterexample mutation. -/
def c2Pre : Elem :=
  { id := some "e1", type := some "rectangle", x := some 0, y := some 0, version := some 1 }

/-- A server state holding exactly `c2Pre`. -/
def c2State : SrvState := { store := [(some "e1", c2Pre)] }

/-- The result of `PUT /api/elements/e1 {x:200}` against `c2State`. -/
def c2Put := putApiElement "2024-01-02T00:00:00.000Z" c2State "e1" { x := some 200 }

/-- C2, counterexample: mutating a stored element of version 1 through
`PUT /api/elements/:id` succeeds but leaves `version` at 1 (the claim
demands pre-version + 1 = 2), generates no `versionNonce` and no ms-epoch
`updated` field (both stay absent). -/
theorem c2_counterexample_no_version_bump :
    c2Put.2.1.status = 200
    ∧ c2Put.2.1.element.map (·.version) = some (some 1)
    ∧ c2Put.2.1.element.map (·.version) ≠ some (some 2)
    ∧ c2Put.2.1.element.map (·.versionNonce) = some none
    ∧ c2Put.2.1.element.map (·.updated) = some none
    ∧ c2Put.2.1.element.map (·.updatedAt) = some (some "2024-01-02T00:00:00.000Z") :=
  ⟨rfl, rfl, by decide, rfl, rfl, rfl⟩

/-- C2, amended: a successful `PUT /api/elements/:id` refreshes only
`updatedAt` (to the current ISO timestamp); `version`, `versionNonce`,
`updated` and `createdAt` are carried over unchanged from the pre-state
element, because the update schema strips all of them from the request
body.  Elements created through `POST /api/elements` start at
`version = 1`, so API-created elements always satisfy `version ≥ 1`, but no
mutation ever increments it. -/
theorem c2_amended_put_preserves_version :
    (∀ (now : String) (s : SrvState) (id : String) (body existing u : Elem),
      alGet s.store (some id) = some existing →
      (putApiElement now s id body).2.1.element = some u →
      (putApiElement now s id body).2.1.status = 200
      ∧ u.version = existing.version
      ∧ u.versionNonce = existing.versionNonce
      ∧ u.updated = existing.updated
      ∧ u.createdAt = existing.createdAt
      ∧ u.updatedAt = some now
      ∧ alGet (putApiElement now s id body).1.store (some id) = some u)
    ∧ (∀ (G : GeomOracle) (freshId now : String) (s : SrvState) (body el : Elem),
      (postApiElement G freshId now s body).2.1.element = some el →
      el.version = some 1) := by
  constructor
  · intro now s id body existing u h1 h2
    cases hz : zodParseUpdate { body with id := some (body.id.getD id) } with
    | none =>
      rw [putApiElement] at h2
      rw [hz] at h2
      simp at h2
    | some updates =>
      have hupd : updates = zodStrip { body with id := some (body.id.getD id) } :=
        zodParseUpdate_some hz
      have h2' : some ({ mergeElem existing updates with updatedAt := some now } : Elem)
          = some u := by
        rw [putApiElement, hz, h1] at h2
        exact h2
      obtain rfl : u = { mergeElem existing updates with updatedAt := some now } :=
        (Option.some.inj h2').symm
      refine ⟨?_, ?_, ?_, ?_, ?_, rfl, ?_⟩
      · rw [putApiElement, hz, h1]
      · show upd updates.version existing.version = existing.version
        rw [hupd]; rfl
      · show upd updates.versionNonce existing.versionNonce = existing.versionNonce
        rw [hupd]; rfl
      · show upd updates.updated existing.updated = existing.updated
        rw [hupd]; rfl
      · show upd updates.createdAt existing.createdAt = existing.createdAt
        rw [hupd]; rfl
      · rw [putApiElement, hz, h1]
        exact alGet_set_self _ _ _
  · intro G freshId now s body el h
    cases hz : zodParseCreate body with
    | none =>
      rw [postApiElement, hz] at h
      simp at h
    | some params =>
      simp only [postApiElement, hz, canvasSyncPayload, syncCanvasStateFromMap] at h
      split at h
      · rw [resolveArrowBindings_singleton] at h
        simp only [List.headD_cons] at h
        obtain rfl := Option.some.inj h
        exact ((resolveOne_preserves _ _ _).2.1).trans rfl
      · obtain rfl := Option.some.inj h
        rfl

/-! ## Claim C8 — `POST /api/export/image/result` and `POST /api/viewport/result` -/

theorem contains_filter_ne (l : List String) (rid : String) :
    (l.filter (fun r => decide (r ≠ rid))).contains rid = false := by
  rw [Bool.eq_false_iff]
  intro hc
  have h2 := List.mem_filter.mp (List.elem_iff.mp hc)
  simp at h2

/-- C8: for both result endpoints — a missing (or empty, hence falsy)
`requestId` is a 400; an unknown `requestId` is a 200 no-op (late-result
policy); a known `requestId` carrying a truthy `error` is a 200 that leaves
the pending entry, its timer and the waiter untouched; a known `requestId`
without an error resolves the waiter with the payload, removes the pending
entry and clears its deadline timer, after which a repeated result for the
same id falls into the unknown-id no-op — so the waiter observes only the
first non-error result. -/
theorem c8_result_endpoint_policy :
    (∀ (s : SrvState) (fmt dat err : Option String),
      postExportImageResult s none fmt dat err = (s, ⟨400, false⟩, none)
      ∧ postExportImageResult s (some "") fmt dat err = (s, ⟨400, false⟩, none))
    ∧ (∀ (s : SrvState) (rid : String) (fmt dat err : Option String), rid ≠ "" →
        s.pendingExports.contains rid = false →
        postExportImageResult s (some rid) fmt dat err = (s, ⟨200, true⟩, none))
    ∧ (∀ (s : SrvState) (rid : String) (fmt dat : Option String) (e : String), rid ≠ "" →
        s.pendingExports.contains rid = true → e ≠ "" →
        postExportImageResult s (some rid) fmt dat (some e) = (s, ⟨200, true⟩, none))
    ∧ (∀ (s : SrvState) (rid : String) (fmt dat : Option String), rid ≠ "" →
        s.pendingExports.contains rid = true →
        postExportImageResult s (some rid) fmt dat none =
          ({ s with pendingExports := s.pendingExports.filter (fun r => decide (r ≠ rid)),
                    exportTimers := s.exportTimers.filter (fun r => decide (r ≠ rid)) },
            ⟨200, true⟩, some (fmt, dat))
        ∧ (postExportImageResult s (some rid) fmt dat none).1.pendingExports.contains rid = false
        ∧ (postExportImageResult s (some rid) fmt dat none).1.exportTimers.contains rid = false
        ∧ ∀ (fmt2 dat2 err2 : Option String),
            postExportImageResult (postExportImageResult s (some rid) fmt dat none).1
                (some rid) fmt2 dat2 err2 =
              ((postExportImageResult s (some rid) fmt dat none).1, ⟨200, true⟩, none))
    ∧ (∀ (s : SrvState) (b : Option Bool) (msg err : Option String),
      postViewportResult s none b msg err = (s, ⟨400, false⟩, none)
      ∧ postViewportResult s (some "") b msg err = (s, ⟨400, false⟩, none))
    ∧ (∀ (s : SrvState) (rid : String) (b : Option Bool) (msg err : Option String), rid ≠ "" →
        s.pendingViewports.contains rid = false →
        postViewportResult s (some rid) b msg err = (s, ⟨200, true⟩, none))
    ∧ (∀ (s : SrvState) (rid : String) (b : Option Bool) (msg : Option String) (e : String),
        rid ≠ "" → s.pendingViewports.contains rid = true → e ≠ "" →
        postViewportResult s (some rid) b msg (some e) = (s, ⟨200, true⟩, none))
    ∧ (∀ (s : SrvState) (rid : String) (b : Option Bool) (msg : Option String), rid ≠ "" →
        s.pendingViewports.contains rid = true →
        postViewportResult s (some rid) b msg none =
          ({ s with pendingViewports := s.pendingViewports.filter (fun r => decide (r ≠ rid)),
                    viewportTimers := s.viewportTimers.filter (fun r => decide (r ≠ rid)) },
            ⟨200, true⟩, some (b.getD true, msg.getD "Viewport updated"))
        ∧ (postViewportResult s (some rid) b msg none).1.pendingViewports.contains rid = false
        ∧ (postViewportResult s (some rid) b msg none).1.viewportTimers.contains rid = false) := by
  refine ⟨fun s fmt dat err => ⟨rfl, rfl⟩, ?_, ?_, ?_,
    fun s b msg err => ⟨rfl, rfl⟩, ?_, ?_, ?_⟩
  · intro s rid fmt dat err hrid hmem
    have hmem' : rid ∉ s.pendingExports := by
      intro hm
      exact Bool.true_eq_false.mp ((List.elem_iff.mpr hm).symm.trans hmem)
    simp [postExportImageResult, strTruthy, hrid, hmem']
  · intro s rid fmt dat e hrid hmem he
    have hmem' : rid ∈ s.pendingExports := List.elem_iff.mp hmem
    simp [postExportImageResult, strTruthy, hrid, hmem', he]
  · intro s rid fmt dat hrid hmem
    have hmem' : rid ∈ s.pendingExports := List.elem_iff.mp hmem
    have hres : postExportImageResult s (some rid) fmt dat none =
        ({ s with pendingExports := s.pendingExports.filter (fun r => decide (r ≠ rid)),
                  exportTimers := s.exportTimers.filter (fun r => decide (r ≠ rid)) },
          ⟨200, true⟩, some (fmt, dat)) := by
      simp [postExportImageResult, strTruthy, hrid, hmem']
    refine ⟨hres, ?_, ?_, ?_⟩
    · rw [hres]; exact contains_filter_ne _ _
    · rw [hres]; exact contains_filter_ne _ _
    · intro fmt2 dat2 err2
      rw [hres]
      have hgone : rid ∉ s.pendingExports.filter (fun r => decide (r ≠ rid)) := by
        intro hm
        have := List.mem_filter.mp hm
        simp at this
      simp [postExportImageResult, strTruthy, hrid, hgone]
  · intro s rid b msg err hrid hmem
    have hmem' : rid ∉ s.pendingViewports := by
      intro hm
      exact Bool.true_eq_false.mp ((List.elem_iff.mpr hm).symm.trans hmem)
    simp [postViewportResult, strTruthy, hrid, hmem']
  · intro s rid b msg e hrid hmem he
    have hmem' : rid ∈ s.pendingViewports := List.elem_iff.mp hmem
    simp [postViewportResult, strTruthy, hrid, hmem', he]
  · intro s rid b msg hrid hmem
    have hmem' : rid ∈ s.pendingViewports := List.elem_iff.mp hmem
    have hres : postViewportResult s (some rid) b msg none =
        ({ s with pendingViewports := s.pendingViewports.filter (fun r => decide (r ≠ rid)),
                  viewportTimers := s.viewportTimers.filter (fun r => decide (r ≠ rid)) },
          ⟨200, true⟩, some (b.getD true, msg.getD "Viewport updated")) := by
      simp [postViewportResult, strTruthy, hrid, hmem']
    refine ⟨hres, ?_, ?_⟩
    · rw [hres]; exact contains_filter_ne _ _
    · rw [hres]; exact contains_filter_ne _ _

/-- A server state with one parked export waiter `"r1"` (timer armed) and
one parked viewport waiter `"v1"`. -/
def pendingState : SrvState :=
  { pendingExports := ["r1"], exportTimers := ["r1"],
    pendingViewports := ["v1"], viewportTimers := ["v1"] }

/-- Witness for `c8_result_endpoint_policy`: the unknown-id, error-discard,
and resolve clauses at the concrete state `pendingState`. -/
theorem c8_result_endpoint_policy_witness :
    (postExportImageResult pendingState (some "ghost") (some "png") (some "") none =
      (pendingState, ⟨200, true⟩, none))
    ∧ (postExportImageResult pendingState (some "r1") (some "png") (some "")
        (some "render failed") = (pendingState, ⟨200, true⟩, none))
    ∧ (postExportImageResult pendingState (some "r1") (some "png") (some "IMG") none =
        ({ pendingState with
             pendingExports := ["r1"].filter (fun r => decide (r ≠ "r1")),
             exportTimers := ["r1"].filter (fun r => decide (r ≠ "r1")) },
          ⟨200, true⟩, some (some "png", some "IMG")))
    ∧ (postViewportResult pendingState (some "v1") none none none =
        ({ pendingState with
             pendingViewports := ["v1"].filter (fun r => decide (r ≠ "v1")),
             viewportTimers := ["v1"].filter (fun r => decide (r ≠ "v1")) },
          ⟨200, true⟩, some (true, "Viewport updated"))) :=
  ⟨c8_result_endpoint_policy.2.1 pendingState "ghost" (some "png") (some "") none
      (by decide) (by decide),
    c8_result_endpoint_policy.2.2.1 pendingState "r1" (some "png") (some "") "render failed"
      (by decide) (by decide) (by decide),
    (c8_result_endpoint_policy.2.2.2.1 pendingState "r1" (some "png") (some "IMG")
      (by decide) (by decide)).1,
    (c8_result_endpoint_policy.2.2.2.2.2.2.2 pendingState "v1" none none
      (by decide) (by decide)).1⟩

/-! ## Claim C9 — WebSocket mutations: apply-then-rebroadcast, no echo -/

theorem mem_broadcast_iff (clients : List Peer) (isOpen : Peer → Bool) (payload : WireMsg)
    (exclude : Option Peer) (p : Peer) (m : WireMsg) :
    (p, m) ∈ broadcast clients isOpen payload exclude ↔
      (p ∈ clients ∧ some p ≠ exclude ∧ isOpen p = true ∧ m = payload) := by
  constructor
  · intro h
    rcases List.mem_map.mp h with ⟨c, hc, heq⟩
    obtain ⟨rfl, rfl⟩ : c = p ∧ payload = m :=
      ⟨congrArg Prod.fst heq, congrArg Prod.snd heq⟩
    rcases List.mem_filter.mp hc with ⟨hmem, hcond⟩
    rw [Bool.and_eq_true, decide_eq_true_eq] at hcond
    exact ⟨hmem, hcond.1, hcond.2, rfl⟩
  · rintro ⟨h1, h2, h3, rfl⟩
    refine List.mem_map.mpr ⟨p, List.mem_filter.mpr ⟨h1, ?_⟩, rfl⟩
    rw [Bool.and_eq_true, decide_eq_true_eq]
    exact ⟨h2, h3⟩

theorem mem_sendEvents_iff (l : List (Peer × WireMsg)) (p : Peer) (m : WireMsg) :
    Event.sent p m ∈ sendEvents l ↔ (p, m) ∈ l := by
  unfold sendEvents
  rw [List.mem_map]
  constructor
  · rintro ⟨⟨q, mq⟩, hq, heq⟩
    obtain ⟨rfl, rfl⟩ : q = p ∧ mq = m := by
      injection heq with h1 h2
      exact ⟨h1, h2⟩
    exact hq
  · intro h
    exact ⟨(p, m), h, rfl⟩

theorem applied_notin_sendEvents (l : List (Peer × WireMsg)) :
    Event.applied ∉ sendEvents l := by
  intro h
  rcases List.mem_map.mp h with ⟨pm, _, heq⟩
  cases heq

/-- Membership in a bare re-broadcast trace. -/
theorem sent_mem_syncTrace_iff (cl : List Peer) (isOpen : Peer → Bool) (pay : WireMsg)
    (sender p : Peer) (m : WireMsg) :
    Event.sent p m ∈ sendEvents (broadcast cl isOpen pay (some sender)) ↔
      (p ∈ cl ∧ p ≠ sender ∧ isOpen p = true ∧ m = pay) := by
  rw [mem_sendEvents_iff, mem_broadcast_iff]
  constructor
  · rintro ⟨h1, h2, h3, rfl⟩
    exact ⟨h1, fun he => h2 (congrArg some he), h3, rfl⟩
  · rintro ⟨h1, h2, h3, rfl⟩
    exact ⟨h1, fun he => h2 (Option.some.inj he), h3, rfl⟩

/-- Membership in an apply-then-re-broadcast trace. -/
theorem sent_mem_appliedTrace_iff (cl : List Peer) (isOpen : Peer → Bool) (pay : WireMsg)
    (sender p : Peer) (m : WireMsg) :
    Event.sent p m ∈ Event.applied :: sendEvents (broadcast cl isOpen pay (some sender)) ↔
      (p ∈ cl ∧ p ≠ sender ∧ isOpen p = true ∧ m = pay) := by
  rw [List.mem_cons]
  constructor
  · rintro (h | h)
    · cases h
    · exact (sent_mem_syncTrace_iff cl isOpen pay sender p m).mp h
  · intro h
    exact Or.inr ((sent_mem_syncTrace_iff cl isOpen pay sender p m).mpr h)

/-- C9: for every inbound WebSocket frame — (a) every emitted send goes to
a currently-registered open peer that is **not** the sender, and its
payload is the `canvas_sync` of the post-handler state; (b) whenever
anything is sent at all, every open registered peer other than the sender
receives that `canvas_sync`; (c) whenever the store mutation happens it is
the first event of the trace, i.e. it precedes every send; (d)–(g) the
mutation applied is exactly the store update prescribed by the frame
(insert for `element_created`, merge for `element_updated` on a hit,
removal for `element_deleted` on a hit, map rebuild for `canvas_sync`
carrying elements), with the broadcast canvas equal to the post-mutation
store contents for the element frames. -/
theorem c9_ws_apply_before_rebroadcast_no_echo :
    ∀ (s : SrvState) (isOpen : Peer → Bool) (sender : Peer) (msg : WSMsg),
      (∀ p m, Event.sent p m ∈ (handleWSMessage s isOpen sender msg).2 →
        p ≠ sender ∧ p ∈ s.clients ∧ isOpen p = true
          ∧ m = .canvasSync (handleWSMessage s isOpen sender msg).1.canvasElements)
      ∧ ((handleWSMessage s isOpen sender msg).2 ≠ [] →
          ∀ p, p ∈ s.clients → p ≠ sender → isOpen p = true →
            Event.sent p (.canvasSync (handleWSMessage s isOpen sender msg).1.canvasElements)
              ∈ (handleWSMessage s isOpen sender msg).2)
      ∧ (Event.applied ∈ (handleWSMessage s isOpen sender msg).2 →
          (handleWSMessage s isOpen sender msg).2.head? = some Event.applied)
      ∧ (∀ el, msg = .elementCreated (some el) →
          (handleWSMessage s isOpen sender msg).1.store = alSet s.store el.id el
          ∧ (handleWSMessage s isOpen sender msg).1.canvasElements
              = alValues (alSet s.store el.id el))
      ∧ (∀ id u ex, msg = .elementUpdated (some (id, u)) →
          alGet s.store (some id) = some ex →
          (handleWSMessage s isOpen sender msg).1.store
              = alSet s.store (some id) (mergeElem ex u)
          ∧ (handleWSMessage s isOpen sender msg).1.canvasElements
              = alValues (alSet s.store (some id) (mergeElem ex u)))
      ∧ (∀ id, msg = .elementDeleted (some id) → alHas s.store (some id) = true →
          (handleWSMessage s isOpen sender msg).1.store = alDelete s.store (some id))
      ∧ (∀ els, msg = .canvasSync (some (some els)) →
          (handleWSMessage s isOpen sender msg).1.store = mapFromCanvas els
          ∧ (handleWSMessage s isOpen sender msg).1.canvasElements = els) := by
  intro s isOpen sender msg
  cases msg with
  | canvasSync data =>
    cases data with
    | none =>
      refine ⟨?_, ?_, ?_, ?_, ?_, ?_, ?_⟩ <;> simp [handleWSMessage]
    | some els? =>
      cases els? with
      | none =>
        have heq : handleWSMessage s isOpen sender (.canvasSync (some none)) =
            (s, sendEvents (broadcast s.clients isOpen
              (.canvasSync s.canvasElements) (some sender))) := rfl
        refine ⟨?_, ?_, ?_, ?_, ?_, ?_, ?_⟩
        · intro p m hm
          rw [heq] at hm ⊢
          obtain ⟨h1, h2, h3, rfl⟩ := (sent_mem_syncTrace_iff _ _ _ _ _ _).mp hm
          exact ⟨h2, h1, h3, rfl⟩
        · intro _ p hp hps hop
          rw [heq]
          exact (sent_mem_syncTrace_iff _ _ _ _ _ _).mpr ⟨hp, hps, hop, rfl⟩
        · intro h
          rw [heq] at h
          exact absurd h (applied_notin_sendEvents _)
        · intro el h; cases h
        · intro id u ex h; cases h
        · intro id h; cases h
        · intro els h; cases h
      | some els =>
        have heq : handleWSMessage s isOpen sender (.canvasSync (some (some els))) =
            ({ s with canvasElements := els, store := mapFromCanvas els },
              Event.applied :: sendEvents (broadcast s.clients isOpen
                (.canvasSync els) (some sender))) := rfl
        refine ⟨?_, ?_, ?_, ?_, ?_, ?_, ?_⟩
        · intro p m hm
          rw [heq] at hm ⊢
          obtain ⟨h1, h2, h3, rfl⟩ := (sent_mem_appliedTrace_iff _ _ _ _ _ _).mp hm
          exact ⟨h2, h1, h3, rfl⟩
        · intro _ p hp hps hop
          rw [heq]
          exact (sent_mem_appliedTrace_iff _ _ _ _ _ _).mpr ⟨hp, hps, hop, rfl⟩
        · intro _
          rw [heq]
          rfl
        · intro el h; cases h
        · intro id u ex h; cases h
        · intro id h; cases h
        · intro els' h
          obtain rfl : els = els' := by
            injection h with h1
            injection h1 with h2
            injection h2 with h3
          rw [heq]
          exact ⟨rfl, rfl⟩
  | elementCreated data =>
    cases data with
    | none =>
      refine ⟨?_, ?_, ?_, ?_, ?_, ?_, ?_⟩ <;> simp [handleWSMessage]
    | some el =>
      have heq : handleWSMessage s isOpen sender (.elementCreated (some el)) =
          ({ s with store := alSet s.store el.id el,
                    canvasElements := alValues (alSet s.store el.id el) },
            Event.applied :: sendEvents (broadcast s.clients isOpen
              (.canvasSync (alValues (alSet s.store el.id el))) (some sender))) := rfl
      refine ⟨?_, ?_, ?_, ?_, ?_, ?_, ?_⟩
      · intro p m hm
        rw [heq] at hm ⊢
        obtain ⟨h1, h2, h3, rfl⟩ := (sent_mem_appliedTrace_iff _ _ _ _ _ _).mp hm
        exact ⟨h2, h1, h3, rfl⟩
      · intro _ p hp hps hop
        rw [heq]
        exact (sent_mem_appliedTrace_iff _ _ _ _ _ _).mpr ⟨hp, hps, hop, rfl⟩
      · intro _
        rw [heq]
        rfl
      · intro el' h
        obtain rfl : el = el' := by
          injection h with h1
          injection h1 with h2
        rw [heq]
        exact ⟨rfl, rfl⟩
      · intro id u ex h; cases h
      · intro id h; cases h
      · intro els h; cases h
  | elementUpdated data =>
    cases data with
    | none =>
      refine ⟨?_, ?_, ?_, ?_, ?_, ?_, ?_⟩ <;> simp [handleWSMessage]
    | some pr =>
      obtain ⟨id, u⟩ := pr
      cases hget : alGet s.store (some id) with
      | none =>
        have heq : handleWSMessage s isOpen sender (.elementUpdated (some (id, u))) =
            (s, []) := by
          simp [handleWSMessage, hget]
        refine ⟨?_, ?_, ?_, ?_, ?_, ?_, ?_⟩
        · intro p m hm; rw [heq] at hm; cases hm
        · intro hne; rw [heq] at hne; exact absurd rfl hne
        · intro h; rw [heq] at h; cases h
        · intro el h; cases h
        · intro id' u' ex' h hget'
          obtain ⟨rfl, rfl⟩ : id = id' ∧ u = u' := by
            injection h with h1
            injection h1 with h2
            exact ⟨congrArg Prod.fst h2, congrArg Prod.snd h2⟩
          rw [hget] at hget'
          cases hget'
        · intro id' h; cases h
        · intro els h; cases h
      | some ex =>
        have heq : handleWSMessage s isOpen sender (.elementUpdated (some (id, u))) =
            ({ s with store := alSet s.store (some id) (mergeElem ex u),
                      canvasElements := alValues (alSet s.store (some id) (mergeElem ex u)) },
              Event.applied :: sendEvents (broadcast s.clients isOpen
                (.canvasSync (alValues (alSet s.store (some id) (mergeElem ex u))))
                (some sender))) := by
          simp [handleWSMessage, hget, wsApplyThenSync, wsBroadcastCanvasSync,
            syncCanvasStateFromMap]
        refine ⟨?_, ?_, ?_, ?_, ?_, ?_, ?_⟩
        · intro p m hm
          rw [heq] at hm ⊢
          obtain ⟨h1, h2, h3, rfl⟩ := (sent_mem_appliedTrace_iff _ _ _ _ _ _).mp hm
          exact ⟨h2, h1, h3, rfl⟩
        · intro _ p hp hps hop
          rw [heq]
          exact (sent_mem_appliedTrace_iff _ _ _ _ _ _).mpr ⟨hp, hps, hop, rfl⟩
        · intro _
          rw [heq]
          rfl
        · intro el h; cases h
        · intro id' u' ex' h hget'
          obtain ⟨rfl, rfl⟩ : id = id' ∧ u = u' := by
            injection h with h1
            injection h1 with h2
            exact ⟨congrArg Prod.fst h2, congrArg Prod.snd h2⟩
          obtain rfl : ex = ex' := by
            rw [hget] at hget'
            exact Option.some.inj hget'
          rw [heq]
          exact ⟨rfl, rfl⟩
        · intro id' h; cases h
        · intro els h; cases h
  | elementDeleted data =>
    cases data with
    | none =>
      refine ⟨?_, ?_, ?_, ?_, ?_, ?_, ?_⟩ <;> simp [handleWSMessage]
    | some id =>
      cases hhas : alHas s.store (some id) with
      | false =>
        have heq : handleWSMessage s isOpen sender (.elementDeleted (some id)) =
            (s, []) := by
          simp [handleWSMessage, hhas]
        refine ⟨?_, ?_, ?_, ?_, ?_, ?_, ?_⟩
        · intro p m hm; rw [heq] at hm; cases hm
        · intro hne; rw [heq] at hne; exact absurd rfl hne
        · intro h; rw [heq] at h; cases h
        · intro el h; cases h
        · intro id' u ex h; cases h
        · intro id' h hhas'
          obtain rfl : id = id' := by
            injection h with h1
            injection h1 with h2
          rw [hhas] at hhas'
          cases hhas'
        · intro els h; cases h
      | true =>
        have heq : handleWSMessage s isOpen sender (.elementDeleted (some id)) =
            ({ s with store := alDelete s.store (some id),
                      canvasElements := alValues (alDelete s.store (some id)) },
              Event.applied :: sendEvents (broadcast s.clients isOpen
                (.canvasSync (alValues (alDelete s.store (some id)))) (some sender))) := by
          simp [handleWSMessage, hhas, wsApplyThenSync, wsBroadcastCanvasSync,
            syncCanvasStateFromMap]
        refine ⟨?_, ?_, ?_, ?_, ?_, ?_, ?_⟩
        · intro p m hm
          rw [heq] at hm ⊢
          obtain ⟨h1, h2, h3, rfl⟩ := (sent_mem_appliedTrace_iff _ _ _ _ _ _).mp hm
          exact ⟨h2, h1, h3, rfl⟩
        · intro _ p hp hps hop
          rw [heq]
          exact (sent_mem_appliedTrace_iff _ _ _ _ _ _).mpr ⟨hp, hps, hop, rfl⟩
        · intro _
          rw [heq]
          rfl
        · intro el h; cases h
        · intro id' u ex h; cases h
        · intro id' h _
          obtain rfl : id = id' := by
            injection h with h1
            injection h1 with h2
          rw [heq]
        · intro els h; cases h
  | unknown =>
    refine ⟨?_, ?_, ?_, ?_, ?_, ?_, ?_⟩ <;> simp [handleWSMessage]

/-- The two-peer state for the C9 witness. -/
def c9State : SrvState := { clients := [1, 2] }

/-- The element the witness sender creates. -/
def c9Elem : Elem := { id := some "z", type := some "rectangle", x := some 0, y := some 0 }

/-- Witness for `c9_ws_apply_before_rebroadcast_no_echo`: peer 1 sends an
`element_created` frame in a two-peer system; the single send goes to peer
2 (not the sender) and carries the post-mutation canvas. -/
theorem c9_ws_witness :
    (2 : Peer) ≠ 1
    ∧ (2 : Peer) ∈ c9State.clients
    ∧ (fun (_ : Peer) => true) (2 : Peer) = true
    ∧ WireMsg.canvasSync [c9Elem] =
        .canvasSync (handleWSMessage c9State (fun _ => true) 1
          (.elementCreated (some c9Elem))).1.canvasElements :=
  (c9_ws_apply_before_rebroadcast_no_echo c9State (fun _ => true) 1
      (.elementCreated (some c9Elem))).1 2 (.canvasSync [c9Elem]) (by decide)

/-! ## Claim C4 — arrow binding resolution -/

/-- A map is id-consistent when every entry is stored under its own
element id.  This is **not** an invariant of every reachable store:
`PUT /api/elements/:id` stores the merge under the path id while a body id
wins inside the element, and `POST /api/elements` with `id: ""` stores
under a generated key while the element keeps the empty id.  It does hold
for stores built only from insertions keyed by the element's own id
(sync, batch, and creations whose id round-trips unchanged). -/
def IdConsistent (m : Store) : Prop := ∀ p ∈ m, p.2.id = p.1

theorem alSet_idConsistent {m : Store} {k : Option String} {v : Elem}
    (h : IdConsistent m) (hv : v.id = k) : IdConsistent (alSet m k v) := by
  induction m with
  | nil =>
    intro p hp
    rcases List.mem_singleton.mp hp with rfl
    exact hv
  | cons q t ih =>
    rw [alSet_cons]
    by_cases hq : q.1 = k
    · rw [if_pos hq]
      intro p hp
      rcases List.mem_cons.mp hp with rfl | hp
      · exact hv
      · exact h p (List.mem_cons_of_mem _ hp)
    · rw [if_neg hq]
      intro p hp
      rcases List.mem_cons.mp hp with rfl | hp
      · exact h p (List.mem_cons_self _ _)
      · exact ih (fun r hr => h r (List.mem_cons_of_mem _ hr)) p hp

theorem alHas_set_of_has {m : Store} {k : Option String} (v : Elem)
    (h : alHas m k = true) (k' : Option String) :
    alHas (alSet m k v) k' = alHas m k' := by
  rw [alHas_set]
  by_cases hk : k = k'
  · subst hk
    simp [h]
  · simp [hk]

/-- The first stage of `buildWorkingMap`: insert the batch keyed by id. -/
def batchFold (batch : List Elem) (m0 : Store) : Store :=
  batch.foldl (fun m el => alSet m el.id el) m0

/-- The second stage: adopt store entries whose key is not yet taken. -/
def storeFold (store : Store) (m0 : Store) : Store :=
  store.foldl (fun m p => if alHas m p.1 then m else alSet m p.1 p.2) m0

theorem buildWorkingMap_eq (store : Store) (batch : List Elem) :
    buildWorkingMap store batch = storeFold store (batchFold batch []) := rfl

theorem alHas_batchFold_mono (batch : List Elem) (m0 : Store) (k : Option String)
    (h : alHas m0 k = true) : alHas (batchFold batch m0) k = true := by
  induction batch generalizing m0 with
  | nil => exact h
  | cons e rest ih =>
    exact ih (alSet m0 e.id e) (by rw [alHas_set, h, Bool.true_or])

theorem mem_batchFold (batch : List Elem) (m0 : Store) :
    ∀ el ∈ batch, alHas (batchFold batch m0) el.id = true := by
  induction batch generalizing m0 with
  | nil => intro el h; cases h
  | cons e rest ih =>
    intro el h
    rcases List.mem_cons.mp h with rfl | h
    · exact alHas_batchFold_mono rest (alSet m0 el.id el) el.id (by simp)
    · exact ih (alSet m0 e.id e) el h

theorem alHas_storeFold_mono (store : Store) (m0 : Store) (k : Option String)
    (h : alHas m0 k = true) : alHas (storeFold store m0) k = true := by
  induction store generalizing m0 with
  | nil => exact h
  | cons p t ih =>
    show alHas (storeFold t (if alHas m0 p.1 then m0 else alSet m0 p.1 p.2)) k = true
    by_cases hp : alHas m0 p.1 = true
    · rw [if_pos hp]; exact ih m0 h
    · rw [if_neg hp]
      exact ih _ (by rw [alHas_set, h, Bool.true_or])

theorem batchFold_idConsistent (batch : List Elem) (m0 : Store)
    (h : IdConsistent m0) : IdConsistent (batchFold batch m0) := by
  induction batch generalizing m0 with
  | nil => exact h
  | cons e rest ih => exact ih _ (alSet_idConsistent h rfl)

theorem storeFold_idConsistent (store : Store) :
    ∀ (m0 : Store), IdConsistent store → IdConsistent m0 →
      IdConsistent (storeFold store m0) := by
  induction store with
  | nil => intro m0 _ h; exact h
  | cons p t ih =>
    intro m0 hs h
    have hs' : IdConsistent t := fun r hr => hs r (List.mem_cons_of_mem _ hr)
    show IdConsistent (storeFold t (if alHas m0 p.1 then m0 else alSet m0 p.1 p.2))
    by_cases hp : alHas m0 p.1 = true
    · rw [if_pos hp]; exact ih m0 hs' h
    · rw [if_neg hp]
      exact ih _ hs' (alSet_idConsistent h (hs p (List.mem_cons_self _ _)))

theorem buildWorkingMap_idConsistent (store : Store) (batch : List Elem)
    (hs : IdConsistent store) : IdConsistent (buildWorkingMap store batch) :=
  storeFold_idConsistent store _ hs
    (batchFold_idConsistent batch [] (fun p hp => by cases hp))

theorem buildWorkingMap_mem_batch (store : Store) (batch : List Elem) :
    ∀ el ∈ batch, alHas (buildWorkingMap store batch) el.id = true := by
  intro el h
  exact alHas_storeFold_mono store _ el.id (mem_batchFold batch [] el h)

theorem resolveOne_points (G : GeomOracle) (emap : Store) (el : Elem)
    (ht : el.type = some "arrow" ∨ el.type = some "line")
    (hr : ¬(el.startRef = none ∧ el.endRef = none)) :
    (∃ a b, (resolveOne G emap el).points = some [a, b])
    ∧ (resolveOne G emap el).startRef = none
    ∧ (resolveOne G emap el).endRef = none := by
  have hcond : (el.type = some "arrow" || el.type = some "line") = true := by
    rcases ht with h | h <;> simp [h]
  have hc2 : ¬((!(decide (el.type = some "arrow") || decide (el.type = some "line"))) = true) := by
    rw [hcond]
    simp
  unfold resolveOne
  rw [if_neg hc2, if_neg hr]
  exact ⟨⟨_, _, rfl⟩, rfl, rfl⟩

theorem resolveOne_startBinding (G : GeomOracle) (emap : Store) (el : Elem)
    (ht : el.type = some "arrow" ∨ el.type = some "line")
    (hr : ¬(el.startRef = none ∧ el.endRef = none)) :
    ∀ bnd, (resolveOne G emap el).startBinding = some bnd →
      el.startBinding = some bnd ∨
        ∃ rid se, el.startRef = some rid ∧ alGet emap (some rid) = some se
          ∧ bnd = ⟨se.id, 0, 8⟩ := by
  have hcond : (el.type = some "arrow" || el.type = some "line") = true := by
    rcases ht with h | h <;> simp [h]
  intro bnd hb
  rcases hsr : el.startRef with _ | rid
  · have her : ¬el.endRef = none := fun h => hr ⟨hsr, h⟩
    left
    simpa [resolveOne, hcond, hsr, her] using hb
  · rcases hge : alGet emap (some rid) with _ | se
    · left
      simpa [resolveOne, hcond, hsr, hge] using hb
    · right
      refine ⟨rid, se, rfl, hge, ?_⟩
      have h2 : some (⟨se.id, 0, 8⟩ : Binding) = some bnd := by
        simpa [resolveOne, hcond, hsr, hge] using hb
      exact (Option.some.inj h2).symm

theorem resolveOne_endBinding (G : GeomOracle) (emap : Store) (el : Elem)
    (ht : el.type = some "arrow" ∨ el.type = some "line")
    (hr : ¬(el.startRef = none ∧ el.endRef = none)) :
    ∀ bnd, (resolveOne G emap el).endBinding = some bnd →
      el.endBinding = some bnd ∨
        ∃ rid ee, el.endRef = some rid ∧ alGet emap (some rid) = some ee
          ∧ bnd = ⟨ee.id, 0, 8⟩ := by
  have hcond : (el.type = some "arrow" || el.type = some "line") = true := by
    rcases ht with h | h <;> simp [h]
  intro bnd hb
  rcases her : el.endRef with _ | rid
  · have hsr : ¬el.startRef = none := fun h => hr ⟨h, her⟩
    left
    simpa [resolveOne, hcond, her, hsr] using hb
  · rcases hge : alGet emap (some rid) with _ | ee
    · left
      simpa [resolveOne, hcond, her, hge] using hb
    · right
      refine ⟨rid, ee, rfl, hge, ?_⟩
      have h2 : some (⟨ee.id, 0, 8⟩ : Binding) = some bnd := by
        simpa [resolveOne, hcond, her, hge] using hb
      exact (Option.some.inj h2).symm

theorem resolveArrowBindings_eq_fold (G : GeomOracle) (store : Store) (batch : List Elem) :
    resolveArrowBindings G store batch =
      (resolveFold G batch ([], buildWorkingMap store batch)).1 := rfl

/-- `resolveStep` never changes the key set of a map that already holds
the stepped element's id (the id survives resolution unchanged). -/
theorem resolveStep_has (G : GeomOracle) (m : Store) (el : Elem) (rest : List Elem)
    (h : alHas m el.id = true) (k : Option String) :
    alHas (resolveStep G m el rest) k = alHas m k := by
  unfold resolveStep
  split
  · exact alHas_set_of_has _ (by rw [(resolveOne_preserves G m el).1]; exact h) k
  · rfl

theorem resolveStep_idConsistent (G : GeomOracle) (m : Store) (el : Elem) (rest : List Elem)
    (h : IdConsistent m) : IdConsistent (resolveStep G m el rest) := by
  unfold resolveStep
  split
  · exact alSet_idConsistent h rfl
  · exact h

theorem resolveFold_prefix (G : GeomOracle) :
    ∀ (batch : List Elem) (acc0 : List Elem) (m0 : Store),
      ∃ t, (resolveFold G batch (acc0, m0)).1 = acc0 ++ t := by
  intro batch
  induction batch with
  | nil => exact fun acc0 m0 => ⟨[], (List.append_nil acc0).symm⟩
  | cons e rest ih =>
    intro acc0 m0
    obtain ⟨t, ht⟩ := ih (acc0 ++ [resolveOne G m0 e]) (resolveStep G m0 e rest)
    refine ⟨resolveOne G m0 e :: t, ?_⟩
    show (resolveFold G rest (acc0 ++ [resolveOne G m0 e], resolveStep G m0 e rest)).1
      = acc0 ++ (resolveOne G m0 e :: t)
    rw [ht, List.append_assoc]
    rfl

/-- Each output of the resolution loop is `resolveOne` of the matching
input, applied against **some** working map that has exactly the keys of
the initial one and inherits its id-consistency. -/
theorem resolveFold_spec (G : GeomOracle) :
    ∀ (batch : List Elem) (acc0 : List Elem) (m0 : Store),
      (∀ el ∈ batch, alHas m0 el.id = true) →
      ∀ i el, batch[i]? = some el →
        ∃ m, (∀ k, alHas m k = alHas m0 k) ∧ (IdConsistent m0 → IdConsistent m) ∧
          (resolveFold G batch (acc0, m0)).1[acc0.length + i]? =
            some (resolveOne G m el) := by
  intro batch
  induction batch with
  | nil =>
    intro acc0 m0 _ i el h
    simp at h
  | cons e rest ih =>
    intro acc0 m0 hkeys i el h
    have hkeyE : alHas m0 e.id = true := hkeys e (List.mem_cons_self _ _)
    have hsame : ∀ k, alHas (resolveStep G m0 e rest) k = alHas m0 k :=
      resolveStep_has G m0 e rest hkeyE
    have hkeys1 : ∀ el' ∈ rest, alHas (resolveStep G m0 e rest) el'.id = true := by
      intro el' hm
      rw [hsame]
      exact hkeys el' (List.mem_cons_of_mem _ hm)
    cases i with
    | zero =>
      obtain rfl : el = e := by simpa using h.symm
      refine ⟨m0, fun k => rfl, id, ?_⟩
      show (resolveFold G rest
          (acc0 ++ [resolveOne G m0 el], resolveStep G m0 el rest)).1[acc0.length + 0]? = _
      obtain ⟨t, ht⟩ := resolveFold_prefix G rest (acc0 ++ [resolveOne G m0 el])
        (resolveStep G m0 el rest)
      rw [ht, List.append_assoc,
        List.getElem?_append_right (by omega : acc0.length ≤ acc0.length + 0)]
      simp
    | succ i' =>
      have h' : rest[i']? = some el := by simpa using h
      obtain ⟨m, hm1, hm2, hidx⟩ := ih (acc0 ++ [resolveOne G m0 e])
        (resolveStep G m0 e rest) hkeys1 i' el h'
      refine ⟨m, fun k => (hm1 k).trans (hsame k),
        fun hc => hm2 (resolveStep_idConsistent G m0 e rest hc), ?_⟩
      show (resolveFold G rest
          (acc0 ++ [resolveOne G m0 e], resolveStep G m0 e rest)).1[acc0.length + (i' + 1)]? = _
      have harith : acc0.length + (i' + 1) = (acc0 ++ [resolveOne G m0 e]).length + i' := by
        simp
        omega
      rw [harith]
      exact hidx

theorem resolveOne_bindings_resolved (G : GeomOracle) (emap : Store) (el se ee : Elem)
    (ht : el.type = some "arrow" ∨ el.type = some "line")
    (rid1 rid2 : String)
    (hsr : el.startRef = some rid1) (her : el.endRef = some rid2)
    (hga : alGet emap (some rid1) = some se) (hgb : alGet emap (some rid2) = some ee) :
    (resolveOne G emap el).startBinding = some ⟨se.id, 0, 8⟩
    ∧ (resolveOne G emap el).endBinding = some ⟨ee.id, 0, 8⟩ := by
  have hcond : (el.type = some "arrow" || el.type = some "line") = true := by
    rcases ht with h | h <;> simp [h]
  constructor <;> simp [resolveOne, hcond, hsr, her, hga, hgb]

/-- Scenario fixture: rectangle `"A"`. -/
def boxA : Elem :=
  { id := some "A", type := some "rectangle", x := some 0, y := some 0,
    width := some 100, height := some 50 }

/-- Scenario fixture: rectangle `"B"`. -/
def boxB : Elem :=
  { id := some "B", type := some "rectangle", x := some 300, y := some 0,
    width := some 100, height := some 50 }

/-- Scenario fixture: the arrow referencing `"A"` and `"B"`. -/
def arrowAB : Elem :=
  { type := some "arrow", x := some 0, y := some 0,
    startRef := some "A", endRef := some "B" }

/-- `boxA` as materialized by `POST /api/elements/batch` for the
scenario. -/
def createdA (now : String) : Elem :=
  { boxA with id := some "A", createdAt := some now, updatedAt := some now, version := some 1 }

/-- `boxB` as materialized by the batch route. -/
def createdB (now : String) : Elem :=
  { boxB with id := some "B", createdAt := some now, updatedAt := some now, version := some 1 }

/-- `arrowAB` as materialized by the batch route (id drawn from `fresh`). -/
def createdArrow (fresh : Nat → String) (now : String) : Elem :=
  { arrowAB with
    id := some (fresh 2)
    createdAt := some now
    updatedAt := some now
    version := some 1 }

/-- Seed body of the C4 counterexample: a rectangle created as `"A"`. -/
def c4SeedBody : Elem :=
  { id := some "A", type := some "rectangle", x := some 0, y := some 0,
    width := some 100, height := some 50 }

/-- A reachable store where a key holds an element of a different id:
`POST /api/elements {id:"A",...}` followed by `PUT /api/elements/A
{id:"B"}` — the update schema keeps the body id, which wins over the path
id inside the element, while the merge is stored back under the path key
`"A"`. -/
def c4IdMismatchState : SrvState :=
  (putApiElement "2024-01-02T00:00:00.000Z"
    (postApiElement zeroOracle "f0" "2024-01-01T00:00:00.000Z" noPeerState c4SeedBody).1
    "A" { id := some "B" }).1

/-- An arrow whose start endpoint references the key `"A"`. -/
def c4CtrArrow : Elem :=
  { type := some "arrow", x := some 0, y := some 0, startRef := some "A" }

set_option maxHeartbeats 4000000 in
/-- C4 (amended): (general) for every oracle, batch, and store each of
whose entries carries its own key as id — a discipline that holds for
stores built only from own-id-keyed insertions but **not** for every
reachable store, as the counterexample below shows — an arrow/line batch
member carrying endpoint references resolves to an output with a two-point
polyline, stripped `start`/`end` fields, and every binding the resolver
emits has `focus 0`, `gap 8` and a target id present in the working map
(batch ∪ store); (scenario) batch-creating `[A, B, arrow A→B]` returns,
for every oracle and id supply, a third element with
`startBinding.elementId = "A"`, `endBinding.elementId = "B"` (focus 0,
gap 8 each), exactly two points, and no `start`/`end` fields. -/
theorem c4_arrow_binding_resolution :
    (∀ (G : GeomOracle) (store : Store) (batch : List Elem), IdConsistent store →
      ∀ (i : Nat) (el el' : Elem), batch[i]? = some el →
        (resolveArrowBindings G store batch)[i]? = some el' →
        (el.type = some "arrow" ∨ el.type = some "line") →
        ¬(el.startRef = none ∧ el.endRef = none) →
        (∃ a b, el'.points = some [a, b])
        ∧ el'.startRef = none ∧ el'.endRef = none
        ∧ (∀ bnd, el'.startBinding = some bnd → el.startBinding = some bnd ∨
            (bnd.focus = 0 ∧ bnd.gap = 8
              ∧ alHas (buildWorkingMap store batch) bnd.elementId = true))
        ∧ (∀ bnd, el'.endBinding = some bnd → el.endBinding = some bnd ∨
            (bnd.focus = 0 ∧ bnd.gap = 8
              ∧ alHas (buildWorkingMap store batch) bnd.elementId = true)))
    ∧ (∀ (G : GeomOracle) (fresh : Nat → String) (now : String),
        (postApiBatch G fresh now noPeerState (some [boxA, boxB, arrowAB])).2.1.status = 200
        ∧ (postApiBatch G fresh now noPeerState (some [boxA, boxB, arrowAB])).2.1.count = 3
        ∧ ((postApiBatch G fresh now noPeerState
              (some [boxA, boxB, arrowAB])).2.1.elements[2]?).map (·.startBinding)
            = some (some ⟨some "A", 0, 8⟩)
        ∧ ((postApiBatch G fresh now noPeerState
              (some [boxA, boxB, arrowAB])).2.1.elements[2]?).map (·.endBinding)
            = some (some ⟨some "B", 0, 8⟩)
        ∧ ((postApiBatch G fresh now noPeerState
              (some [boxA, boxB, arrowAB])).2.1.elements[2]?).map
                (fun ar => ar.points.map List.length) = some (some 2)
        ∧ ((postApiBatch G fresh now noPeerState
              (some [boxA, boxB, arrowAB])).2.1.elements[2]?).map (·.startRef) = some none
        ∧ ((postApiBatch G fresh now noPeerState
              (some [boxA, boxB, arrowAB])).2.1.elements[2]?).map (·.endRef) = some none) := by
  constructor
  · intro G store batch hc i el el' h1 h2 ht hr
    rw [resolveArrowBindings_eq_fold] at h2
    obtain ⟨m, hm1, hm2, hidx⟩ := resolveFold_spec G batch [] (buildWorkingMap store batch)
      (buildWorkingMap_mem_batch store batch) i el h1
    rw [List.length_nil, Nat.zero_add] at hidx
    obtain rfl : el' = resolveOne G m el := by
      rw [hidx] at h2
      exact (Option.some.inj h2).symm
    have hmc : IdConsistent m := hm2 (buildWorkingMap_idConsistent store batch hc)
    obtain ⟨hp, hs, he⟩ := resolveOne_points G m el ht hr
    refine ⟨hp, hs, he, ?_, ?_⟩
    · intro bnd hb
      rcases resolveOne_startBinding G m el ht hr bnd hb with h | ⟨rid, se, _, hge, rfl⟩
      · exact Or.inl h
      · refine Or.inr ⟨rfl, rfl, ?_⟩
        have hse : se.id = some rid := hmc _ (alGet_mem hge)
        have : alHas m (some rid) = true := by
          rw [alHas_iff_alGet_isSome, hge]
          rfl
        show alHas (buildWorkingMap store batch) se.id = true
        rw [hse, ← hm1]
        exact this
    · intro bnd hb
      rcases resolveOne_endBinding G m el ht hr bnd hb with h | ⟨rid, ee, _, hge, rfl⟩
      · exact Or.inl h
      · refine Or.inr ⟨rfl, rfl, ?_⟩
        have hee : ee.id = some rid := hmc _ (alGet_mem hge)
        have : alHas m (some rid) = true := by
          rw [alHas_iff_alGet_isSome, hge]
          rfl
        show alHas (buildWorkingMap store batch) ee.id = true
        rw [hee, ← hm1]
        exact this
  · intro G fresh now
    have hel : (postApiBatch G fresh now noPeerState (some [boxA, boxB, arrowAB])).2.1.elements
        = resolveArrowBindings G [] [createdA now, createdB now, createdArrow fresh now] := rfl
    have hc0 : IdConsistent ([] : Store) := fun p hp => absurd hp (List.not_mem_nil p)
    obtain ⟨m, hm1, hm2, hidx⟩ := resolveFold_spec G
      [createdA now, createdB now, createdArrow fresh now] []
      (buildWorkingMap [] [createdA now, createdB now, createdArrow fresh now])
      (buildWorkingMap_mem_batch [] _) 2 (createdArrow fresh now) rfl
    rw [List.length_nil, Nat.zero_add] at hidx
    have hmc : IdConsistent m := hm2 (buildWorkingMap_idConsistent [] _ hc0)
    have hhA : alHas m (some "A") = true := by
      rw [hm1]
      exact buildWorkingMap_mem_batch [] _ (createdA now) (List.mem_cons_self _ _)
    have hhB : alHas m (some "B") = true := by
      rw [hm1]
      exact buildWorkingMap_mem_batch [] _ (createdB now)
        (List.mem_cons_of_mem _ (List.mem_cons_self _ _))
    have hgA : (alGet m (some "A")).isSome = true := by
      rw [← alHas_iff_alGet_isSome]
      exact hhA
    have hgB : (alGet m (some "B")).isSome = true := by
      rw [← alHas_iff_alGet_isSome]
      exact hhB
    obtain ⟨se, hga⟩ := Option.isSome_iff_exists.mp hgA
    obtain ⟨ee, hgb⟩ := Option.isSome_iff_exists.mp hgB
    have hseid : se.id = some "A" := hmc _ (alGet_mem hga)
    have heeid : ee.id = some "B" := hmc _ (alGet_mem hgb)
    have ht : (createdArrow fresh now).type = some "arrow"
        ∨ (createdArrow fresh now).type = some "line" := Or.inl rfl
    have hr : ¬((createdArrow fresh now).startRef = none
        ∧ (createdArrow fresh now).endRef = none) := by
      intro hcontra
      cases hcontra.1
    obtain ⟨hbs, hbe⟩ := resolveOne_bindings_resolved G m
      (createdArrow fresh now) se ee ht "A" "B" rfl rfl hga hgb
    rw [hseid] at hbs
    rw [heeid] at hbe
    obtain ⟨a, b, hp⟩ := (resolveOne_points G m (createdArrow fresh now) ht hr).1
    obtain ⟨hsr, her⟩ := (resolveOne_points G m (createdArrow fresh now) ht hr).2
    have harr : (postApiBatch G fresh now noPeerState
        (some [boxA, boxB, arrowAB])).2.1.elements[2]?
        = some (resolveOne G m (createdArrow fresh now)) := by
      rw [hel, resolveArrowBindings_eq_fold]
      exact hidx
    refine ⟨rfl, rfl, ?_, ?_, ?_, ?_, ?_⟩
    · rw [harr]
      simp [hbs]
    · rw [harr]
      simp [hbe]
    · rw [harr]
      simp [hp]
    · rw [harr]
      simp [hsr]
    · rw [harr]
      simp [her]

/-- The arrow of the C4 witness, resolved against the empty store with the
trivial oracle (its endpoint references dangle, so no binding is emitted
but the polyline is still rewritten). -/
def c4ResolvedArrow : Elem :=
  (resolveArrowBindings zeroOracle [] [arrowAB]).headD arrowAB

/-- Witness for the general clause of `c4_arrow_binding_resolution` at the
trivial oracle, the empty store and the singleton arrow batch. -/
theorem c4_arrow_binding_witness :
    (∃ a b, c4ResolvedArrow.points = some [a, b])
    ∧ c4ResolvedArrow.startRef = none ∧ c4ResolvedArrow.endRef = none
    ∧ (∀ bnd, c4ResolvedArrow.startBinding = some bnd → arrowAB.startBinding = some bnd ∨
        (bnd.focus = 0 ∧ bnd.gap = 8
          ∧ alHas (buildWorkingMap [] [arrowAB]) bnd.elementId = true))
    ∧ (∀ bnd, c4ResolvedArrow.endBinding = some bnd → arrowAB.endBinding = some bnd ∨
        (bnd.focus = 0 ∧ bnd.gap = 8
          ∧ alHas (buildWorkingMap [] [arrowAB]) bnd.elementId = true)) :=
  c4_arrow_binding_resolution.1 zeroOracle [] [arrowAB]
    (fun p hp => absurd hp (List.not_mem_nil p)) 0 arrowAB
    c4ResolvedArrow rfl rfl (Or.inl rfl) (by decide)

/-- C4, counterexample to the unconditional reading of the claim: at the
reachable store of `c4IdMismatchState` the key `"A"` holds an element
whose id is `"B"`, so resolving an arrow that references `"A"` emits
`startBinding.elementId = "B"` — the id held under the referenced key —
although `"B"` is not a key of the working map: the emitted binding's
target id does not exist in the batch-union-store map. -/
theorem c4_counterexample_binding_target_not_a_key :
    (alGet c4IdMismatchState.store (some "A")).map (·.id) = some (some "B")
    ∧ ((resolveArrowBindings zeroOracle c4IdMismatchState.store [c4CtrArrow]).headD
        c4CtrArrow).startBinding = some ⟨some "B", 0, 8⟩
    ∧ alHas (buildWorkingMap c4IdMismatchState.store [c4CtrArrow]) (some "B") = false :=
  ⟨rfl, rfl, rfl⟩

/-! ## Claim C3 — snapshot independence -/

/-- No element-mutating operation ever touches the snapshot registry. -/
theorem stepOp_snapshots (s : SrvState) (op : Op) : (stepOp s op).snapshots = s.snapshots := by
  cases op <;>
    simp only [stepOp, postApiElement, putApiElement, deleteApiElement, clearApiElements,
      postApiBatch, postApiSync, legacyPostElement, legacyPutElement, legacyDeleteElement,
      legacyClear, legacyPostCanvas, handleWSMessage, wsApplyThenSync, wsBroadcastCanvasSync,
      canvasSyncPayload, syncCanvasStateFromMap] <;>
    (repeat' split) <;> rfl

theorem foldOps_snapshots (ops : List Op) (st : SrvState) :
    (ops.foldl stepOp st).snapshots = st.snapshots := by
  induction ops generalizing st with
  | nil => rfl
  | cons op rest ih => rw [List.foldl_cons, ih, stepOp_snapshots]

/-- C3: a snapshot taken by `POST /api/snapshots` records the store values
at creation time, and **every** sequence of later element mutations —
updates, deletes, clears, re-creations, batch imports, syncs, legacy and
WebSocket mutations alike — leaves the stored snapshot exactly equal to
that recording.  (In the source the snapshot holds an array copy of the
map's object references; since every mutation path replaces map entries
with freshly spread objects and never mutates a stored element in place,
the snapshot contents are observably immutable, which is what this
functional model captures.) -/
theorem c3_snapshot_independent_of_mutations :
    ∀ (s : SrvState) (name : Option String) (now : String) (ops : List Op),
      jsTrim (name.getD "") ≠ "" →
      alGet ((ops.foldl stepOp (postSnapshot now s name).1).snapshots) (jsTrim (name.getD ""))
        = some ⟨jsTrim (name.getD ""), alValues s.store, now⟩ := by
  intro s name now ops h
  rw [foldOps_snapshots]
  simp only [postSnapshot]
  rw [if_neg h]
  exact alGet_set_self _ _ _

/-- A one-element store for the C3 witness. -/
def c3Elem : Elem := { id := some "k", type := some "rectangle", x := some 0, y := some 0 }

/-- Starting state of the C3 witness. -/
def c3Start : SrvState := { store := [(some "k", c3Elem)] }

/-- Mutation burst of the C3 witness: update, delete, clear, re-create. -/
def c3Ops : List Op :=
  [ .apiPut "T2" "k" { x := some 99 },
    .apiDelete "k",
    .apiClear "T3",
    .apiSync "T4" (some [c3Elem]) ]

/-- Witness for `c3_snapshot_independent_of_mutations` at a concrete store,
name and mutation sequence. -/
theorem c3_snapshot_witness :
    alGet ((c3Ops.foldl stepOp (postSnapshot "T1" c3Start (some "snap")).1).snapshots)
        (jsTrim "snap") = some ⟨jsTrim "snap", [c3Elem], "T1"⟩ :=
  c3_snapshot_independent_of_mutations c3Start (some "snap") "T1" c3Ops (by decide)

/-- The element stored after the witness `PUT`. -/
def c2PutElem : Elem :=
  { id := some "e1", type := some "rectangle", x := some 200, y := some 0,
    version := some 1, updatedAt := some "2024-01-02T00:00:00.000Z" }

/-- Witness for `c2_amended_put_preserves_version` at a concrete store,
body and clock. -/
theorem c2_amended_witness :
    ((putApiElement "2024-01-02T00:00:00.000Z" c2State "e1" { x := some 200 }).2.1.status = 200
      ∧ c2PutElem.version = c2Pre.version
      ∧ c2PutElem.versionNonce = c2Pre.versionNonce
      ∧ c2PutElem.updated = c2Pre.updated
      ∧ c2PutElem.createdAt = c2Pre.createdAt
      ∧ c2PutElem.updatedAt = some "2024-01-02T00:00:00.000Z"
      ∧ alGet (putApiElement "2024-01-02T00:00:00.000Z" c2State "e1"
          { x := some 200 }).1.store (some "e1") = some c2PutElem)
    ∧ ({ id := some "f1", type := some "rectangle", x := some 0, y := some 0,
         width := some 100, height := some 50, createdAt := some "T",
         updatedAt := some "T", version := some 1 } : Elem).version = some 1 :=
  ⟨c2_amended_put_preserves_version.1 "2024-01-02T00:00:00.000Z" c2State "e1"
      { x := some 200 } c2Pre c2PutElem rfl rfl,
    c2_amended_put_preserves_version.2 zeroOracle "f1" "T" noPeerState rectBody _ rfl⟩

end Excalidesk
